import Mathlib

set_option linter.unusedVariables false

/-!
# Verification of the AST → DFG pipeline

A shallow embedding of the core of the `AstToDfg-PonziDetector` repository:

* `src/src/dfg_builder/dfg_config.py` — node priority classification and the
  retention predicate (`get_node_priority`, `should_keep_node`, the canned
  `DFGConfig` presets);
* `src/src/dfg_builder.py` — the scope-aware DFG builder (`DFGBuilder`);
* `src/src/ast_builder.py` — the AST builder (`ASTBuilder.build_node` id
  assignment discipline).

Python dictionaries are modelled as association lists (later bindings are
prepended, `List.lookup` finds the most recent one), Python sets as literal
lists, f-string id rendering as explicit decimal rendering of the counter.
-/

/-! ## Classification and filtering layer (`dfg_config.py`) -/

/-- `NodePriority` enum from `dfg_config.py`. -/
inductive NodePriority where
  | critical
  | important
  | auxiliary
  | discard
deriving DecidableEq, Repr

/-- `OutputMode` enum from `dfg_config.py`. -/
inductive OutputMode where
  | compact
  | standard
  | verbose
  | custom
deriving DecidableEq, Repr

/-- The fields of the `DFGConfig` dataclass consulted by `should_keep_node`
and set by `_apply_mode_defaults` (edge/performance fields that no claim
touches are omitted). Defaults are the dataclass field defaults. -/
structure DFGConfig where
  output_mode : OutputMode := OutputMode.standard
  skip_node_types : List String := []
  include_node_types : List String := []
  skip_keywords : Bool := true
  skip_type_names : Bool := true
  skip_operators : Bool := true
  skip_punctuation : Bool := true
  merge_simple_expressions : Bool := true
  skip_literal_nodes : Bool := false
  min_node_priority : NodePriority := NodePriority.important
  include_node_text : Bool := false
  include_ast_metadata : Bool := false
deriving DecidableEq, Repr

/-- `DFGConfig._apply_mode_defaults`: overrides the filtering fields
according to the output mode (the `custom` mode changes nothing). -/
def apply_mode_defaults (c : DFGConfig) : DFGConfig :=
  match c.output_mode with
  | OutputMode.compact =>
      { c with
        skip_keywords := true, skip_type_names := true,
        skip_operators := true, skip_punctuation := true,
        merge_simple_expressions := true, skip_literal_nodes := true,
        min_node_priority := NodePriority.critical,
        include_node_text := false, include_ast_metadata := false }
  | OutputMode.standard =>
      { c with
        skip_keywords := true, skip_type_names := true,
        skip_operators := true, skip_punctuation := true,
        merge_simple_expressions := true, skip_literal_nodes := false,
        min_node_priority := NodePriority.important,
        include_node_text := false, include_ast_metadata := false }
  | OutputMode.verbose =>
      { c with
        skip_keywords := false, skip_type_names := false,
        skip_operators := false, skip_punctuation := false,
        merge_simple_expressions := false, skip_literal_nodes := false,
        min_node_priority := NodePriority.discard,
        include_node_text := true, include_ast_metadata := true }
  | OutputMode.custom => c

/-- `DFGConfig.compact()`: dataclass construction with
`output_mode=COMPACT` followed by `__post_init__`'s `_apply_mode_defaults`. -/
def DFGConfig.compact : DFGConfig :=
  apply_mode_defaults { output_mode := OutputMode.compact }

/-- `DFGConfig.standard()`. -/
def DFGConfig.standard : DFGConfig :=
  apply_mode_defaults { output_mode := OutputMode.standard }

/-- `DFGConfig.verbose()`. -/
def DFGConfig.verbose : DFGConfig :=
  apply_mode_defaults { output_mode := OutputMode.verbose }

/-- `CRITICAL_NODE_TYPES` set literal from `dfg_config.py`. -/
def CRITICAL_NODE_TYPES : List String :=
  ["contract", "interface", "library", "function",
   "constructor_function", "modifier", "state_variable"]

/-- `IMPORTANT_NODE_TYPES` set literal from `dfg_config.py`. -/
def IMPORTANT_NODE_TYPES : List String :=
  ["local_variable", "parameter", "expression",
   "if_statement", "for_statement", "while_statement", "return_statement",
   "struct_declaration", "enum_declaration", "event_definition"]

/-- `AUXILIARY_NODE_TYPES` set literal from `dfg_config.py`. -/
def AUXILIARY_NODE_TYPES : List String :=
  ["number_literal", "string_literal", "boolean_literal",
   "expression_statement", "block"]

/-- `KEYWORD_PATTERNS` set literal from `dfg_config.py`. -/
def KEYWORD_PATTERNS : List String :=
  ["pragma", "solidity", "contract", "function", "public", "private",
   "internal", "external", "pure", "view", "payable", "constant",
   "memory", "storage", "calldata", "returns", "return", "if", "else",
   "for", "while", "do", "break", "continue", "throw", "require",
   "assert", "revert", "emit", "new", "delete", "struct", "enum",
   "mapping", "address", "uint", "int", "bool", "string", "bytes",
   "uint8", "uint16", "uint32", "uint64", "uint128", "uint256",
   "int8", "int16", "int32", "int64", "int128", "int256",
   "bytes1", "bytes2", "bytes4", "bytes8", "bytes16", "bytes32"]

/-- `TYPE_KEYWORDS` set literal from `dfg_config.py`. -/
def TYPE_KEYWORDS : List String :=
  ["uint", "int", "address", "bool", "string", "bytes",
   "uint8", "uint16", "uint32", "uint64", "uint128", "uint256",
   "int8", "int16", "int32", "int64", "int128", "int256",
   "bytes1", "bytes2", "bytes4", "bytes8", "bytes16", "bytes32",
   "mapping", "struct", "enum"]

/-- `OPERATORS` set literal from `dfg_config.py`. -/
def OPERATORS : List String :=
  ["+", "-", "*", "/", "%", "**",
   "==", "!=", "<", ">", "<=", ">=",
   "&&", "||", "!",
   "&", "|", "^", "~", "<<", ">>",
   "=", "+=", "-=", "*=", "/=", "%=",
   "++", "--",
   "?", ":"]

/-- `PUNCTUATION` set literal from `dfg_config.py`. -/
def PUNCTUATION : List String :=
  ["(", ")", "\x7b", "\x7d", "[", "]",
   ";", ",", ".", "=>"]

/-- Python `str.strip().lower()` applied to a string, modelled on the
character list (ASCII lowering, whitespace stripping at both ends). -/
def py_strip_lower (s : String) : String :=
  String.mk ((((s.data.dropWhile Char.isWhitespace).reverse.dropWhile
    Char.isWhitespace).reverse).map Char.toLower)

/-- Python truthiness of an `Optional[str]` value: `None` and the empty
string are falsy. -/
def opt_str_truthy : Option String → Bool
  | none => false
  | some s => !(s == "")

/-- `get_node_priority(node_type, node_name, node_text)` from
`dfg_config.py`: closed type-set membership first, then — for bare
identifiers with truthy text — the four case-insensitive vocabularies,
defaulting to `AUXILIARY`. -/
def get_node_priority (node_type : String) (node_name : Option String := none)
    (node_text : Option String := none) : NodePriority :=
  if CRITICAL_NODE_TYPES.contains node_type then NodePriority.critical
  else if IMPORTANT_NODE_TYPES.contains node_type then NodePriority.important
  else if AUXILIARY_NODE_TYPES.contains node_type then NodePriority.auxiliary
  else if node_type == "identifier" && opt_str_truthy node_text then
    let text_lower := py_strip_lower (node_text.getD "")
    if KEYWORD_PATTERNS.contains text_lower then NodePriority.discard
    else if TYPE_KEYWORDS.contains text_lower then NodePriority.discard
    else if OPERATORS.contains text_lower then NodePriority.discard
    else if PUNCTUATION.contains text_lower then NodePriority.discard
    else NodePriority.auxiliary
  else NodePriority.auxiliary

/-- The `priority_order` ranking dictionary inside `should_keep_node`. -/
def priority_order : NodePriority → Nat
  | NodePriority.critical => 4
  | NodePriority.important => 3
  | NodePriority.auxiliary => 2
  | NodePriority.discard => 1

/-- Python `str.endswith(suffix)`, modelled on the character lists. -/
def py_endswith (s suffix : String) : Bool :=
  suffix.data.isSuffixOf s.data

/-- `should_keep_node(node_type, node_name, node_text, config)` from
`dfg_config.py`. -/
def should_keep_node (node_type node_name node_text : String)
    (config : DFGConfig) : Bool :=
  if !config.include_node_types.isEmpty &&
      !config.include_node_types.contains node_type then false
  else if config.skip_node_types.contains node_type then false
  else
    let priority := get_node_priority node_type (some node_name) (some node_text)
    if priority_order priority < priority_order config.min_node_priority then
      false
    else if node_type == "identifier" && !(node_text == "") &&
        ((config.skip_keywords &&
            KEYWORD_PATTERNS.contains (py_strip_lower node_text)) ||
         (config.skip_type_names &&
            TYPE_KEYWORDS.contains (py_strip_lower node_text)) ||
         (config.skip_operators &&
            OPERATORS.contains (py_strip_lower node_text)) ||
         (config.skip_punctuation &&
            PUNCTUATION.contains (py_strip_lower node_text))) then false
    else if config.skip_literal_nodes && py_endswith node_type "_literal" then
      false
    else true

example : get_node_priority "identifier" none (some "uint256") =
    NodePriority.discard := by decide

example : get_node_priority "identifier" none (some "balance") =
    NodePriority.auxiliary := by decide

example : should_keep_node "contract" "C" "contract C" DFGConfig.compact =
    true := by decide

example : should_keep_node "identifier" "myVariable" "myVariable"
    DFGConfig.standard = false := by decide

/-- The `compact` preset, written out field by field. -/
theorem compact_eq : DFGConfig.compact =
    { output_mode := OutputMode.compact, skip_literal_nodes := true,
      min_node_priority := NodePriority.critical } := rfl

/-- The `standard` preset, written out field by field (it coincides with
the dataclass defaults). -/
theorem standard_eq : DFGConfig.standard =
    { output_mode := OutputMode.standard } := rfl

/-- The `verbose` preset, written out field by field. -/
theorem verbose_eq : DFGConfig.verbose =
    { output_mode := OutputMode.verbose,
      skip_keywords := false, skip_type_names := false,
      skip_operators := false, skip_punctuation := false,
      merge_simple_expressions := false, skip_literal_nodes := false,
      min_node_priority := NodePriority.discard,
      include_node_text := true, include_ast_metadata := true } := rfl

/-- The `verbose` preset keeps every node: its priority threshold is
`DISCARD`, all vocabulary skip toggles are off, and literal skipping is
off. -/
theorem should_keep_verbose (t n x : String) :
    should_keep_node t n x DFGConfig.verbose = true := by
  unfold should_keep_node
  simp only [verbose_eq]
  cases hp : get_node_priority t (some n) (some x) <;> simp [hp, priority_order]

/-- Anything the `compact` preset keeps, the `standard` preset keeps: the
priority threshold relaxes from `CRITICAL` to `IMPORTANT`, the vocabulary
toggles agree, and literal skipping relaxes from on to off. -/
theorem should_keep_compact_imp_standard (t n x : String)
    (h : should_keep_node t n x DFGConfig.compact = true) :
    should_keep_node t n x DFGConfig.standard = true := by
  unfold should_keep_node at h ⊢
  simp only [compact_eq, standard_eq] at h ⊢
  cases hp : get_node_priority t (some n) (some x) <;>
    simp_all [hp, priority_order]

/-- C3: for every `(nodeType, nodeName, nodeText)` triple, if
`should_keep_node` keeps it under the `compact` preset then it keeps it
under the `standard` preset, and if it keeps it under `standard` then it
keeps it under `verbose` — each preset is a relaxation of the previous. -/
theorem claim_C3 (t n x : String) :
    (should_keep_node t n x DFGConfig.compact = true →
      should_keep_node t n x DFGConfig.standard = true) ∧
    (should_keep_node t n x DFGConfig.standard = true →
      should_keep_node t n x DFGConfig.verbose = true) :=
  ⟨should_keep_compact_imp_standard t n x,
   fun _ => should_keep_verbose t n x⟩

/-- Witness for C3 at the concrete node `("contract", "C", "contract C")`,
which the compact preset keeps. -/
theorem claim_C3_witness :
    should_keep_node "contract" "C" "contract C" DFGConfig.compact = true ∧
    should_keep_node "contract" "C" "contract C" DFGConfig.standard = true ∧
    should_keep_node "contract" "C" "contract C" DFGConfig.verbose = true :=
  ⟨by decide,
   (claim_C3 "contract" "C" "contract C").1 (by decide),
   (claim_C3 "contract" "C" "contract C").2
     ((claim_C3 "contract" "C" "contract C").1 (by decide))⟩

/-- C4: the claim (and the repository's own test
`test/test_dfg_config.py::test_variable_identifier`) expects an identifier
outside every closed vocabulary, such as `"balance"`, to be classified
`IMPORTANT`; the code's fall-through in `get_node_priority` instead
returns `AUXILIARY` (its final default branch). `"uint256"` is classified
`DISCARD` as claimed. This theorem evaluates the code at both inputs. -/
theorem claim_C4 :
    get_node_priority "identifier" none (some "uint256") =
      NodePriority.discard ∧
    get_node_priority "identifier" none (some "balance") =
      NodePriority.auxiliary ∧
    NodePriority.auxiliary ≠ NodePriority.important := by
  refine ⟨by decide, by decide, by decide⟩

/-! ## The typed AST (`node_types.py`)

The dataclass hierarchy `ASTNode` / `ContractNode` / `FunctionNode` /
`VariableNode` / `ExpressionNode` is modelled as one inductive with one
constructor per class; `isinstance` dispatch becomes constructor matching.
Only the fields the DFG builder consults are carried:

* the `parent` back-reference is dropped (it would make the type cyclic
  and `DFGBuilder` never reads it);
* `source_location` and the `metadata` map are dropped — `DFGBuilder`
  copies them into node property maps that no claim inspects;
* `children` is dropped on the variable and expression constructors:
  `ASTBuilder` never appends children there (operands live in
  `left_operand` / `right_operand` / `arguments`) and
  `DFGBuilder._build_variable_dfg` / `_build_expression_dfg` never read
  `children`.
-/

/-- A parameter record (the `{"name": ..., "type": ...}` dict built by
`ASTBuilder.extract_parameter_info`); each key is optional. -/
structure ParamInfo where
  name : Option String := none
  type : Option String := none
deriving DecidableEq, Repr

/-! The typed AST. The `genericNode` constructor carries the raw node-type
tag string (`ast_node.node_type.value` for anything that is not a
contract / function / variable / expression). Child lists and optional
operand slots are represented by the mutually defined `ASTList` / `ASTOpt`
types (isomorphic to `List ASTNode` / `Option ASTNode`) so that the
tree walk is plain mutual structural recursion. -/

mutual

inductive ASTNode where
  | contractNode (name : Option String) (base_contracts : List String)
      (children : ASTList) (text : Option String)
  | functionNode (name : Option String) (is_constructor : Bool)
      (parameters : List ParamInfo) (return_parameters : List ParamInfo)
      (children : ASTList) (text : Option String)
  | variableNode (name : Option String) (is_state_variable : Bool)
      (data_type : Option String) (initial_value : Option String)
      (text : Option String)
  | expressionNode (name : Option String) (operator : Option String)
      (left_operand : ASTOpt) (right_operand : ASTOpt)
      (arguments : ASTList) (text : Option String)
  | genericNode (node_type : String) (name : Option String)
      (children : ASTList) (text : Option String)

inductive ASTList where
  | nil
  | cons (head : ASTNode) (tail : ASTList)

inductive ASTOpt where
  | none
  | some (node : ASTNode)

end

/-- Length of an `ASTList` (the number of direct children). -/
def ASTList.length : ASTList → Nat
  | ASTList.nil => 0
  | ASTList.cons _ tl => tl.length + 1

/-! ## The DFG data model (`node_types.py`) -/

/-- `EdgeType` enum. -/
inductive EdgeType where
  | data_dependency
  | control_dependency
  | function_call
  | definition
  | usage
  | modifies
deriving DecidableEq, Repr

/-- `DFGNode`. The borrowed `ast_node` reference is represented by the
only field of it the builder reads afterwards: its `text` (consulted by
the call-resolution post-pass). Property maps are modelled as string
association lists; the `source_location` node property is dropped. -/
structure DFGNode where
  node_id : String
  ast_text : Option String
  node_type : String
  name : Option String
  data_type : Option String
  scope : Option String
  properties : List (String × String)
deriving DecidableEq, Repr

/-- `DFGEdge` (the `label` and `weight` fields always hold their defaults
`None` / `1` — `DFGBuilder._add_edge` never sets them — and are
dropped). -/
structure DFGEdge where
  edge_id : String
  source_node_id : String
  target_node_id : String
  edge_type : EdgeType
  properties : List (String × String)
deriving DecidableEq, Repr

/-- `DFG`. The `nodes` / `edges` dicts are keyed by freshly generated
unique ids, so they are modelled as insertion-ordered lists; the unused
`entry_node_id` and `metadata` fields are dropped. -/
structure DFG where
  contract_name : String
  solidity_version : String
  nodes : List DFGNode
  edges : List DFGEdge
deriving DecidableEq, Repr

/-! ## Decimal id rendering

Python renders ids with f-strings (`f"dfg_node_{self.node_counter}"`).
The decimal rendering of the counter is modelled explicitly so that its
injectivity can be proved. -/

/-- Decimal digit string of a natural number (most significant first),
using the core digit-to-character map. The first argument is structural
fuel; any fuel above the value itself is sufficient. -/
def nat_digits_aux : Nat → Nat → List Char
  | 0, _ => []
  | fuel + 1, n =>
    if n < 10 then [Nat.digitChar n]
    else nat_digits_aux fuel (n / 10) ++ [Nat.digitChar (n % 10)]

/-- Decimal digit string of a natural number (most significant first). -/
def nat_digits (n : Nat) : List Char :=
  nat_digits_aux (n + 1) n

/-- Decimal rendering of a natural number. -/
def nat_repr (n : Nat) : String :=
  String.mk (nat_digits n)

/-- `generate_node_id`'s rendered id for a given counter value. -/
def mk_node_id (n : Nat) : String := "dfg_node_" ++ nat_repr n

/-- `generate_edge_id`'s rendered id for a given counter value. -/
def mk_edge_id (n : Nat) : String := "dfg_edge_" ++ nat_repr n

/-- The digit-to-character map is injective on single digits. -/
theorem digitChar_inj :
    ∀ a < 10, ∀ b < 10, Nat.digitChar a = Nat.digitChar b → a = b := by
  decide

/-- Any sufficient fuel computes the same digit string. -/
theorem nat_digits_aux_irrel (n : Nat) : ∀ f₁ f₂ : Nat, n < f₁ → n < f₂ →
    nat_digits_aux f₁ n = nat_digits_aux f₂ n := by
  induction n using Nat.strong_induction_on with
  | _ n ih =>
    intro f₁ f₂ h₁ h₂
    cases f₁ with
    | zero => omega
    | succ g₁ =>
    cases f₂ with
    | zero => omega
    | succ g₂ =>
      by_cases hn : n < 10
      · simp [nat_digits_aux, hn]
      · have hlt : n / 10 < n := Nat.div_lt_self (by omega) (by omega)
        simp only [nat_digits_aux, hn, if_false]
        rw [ih (n / 10) hlt g₁ g₂ (by omega) (by omega)]

/-- Fuel-free unfolding of `nat_digits`. -/
theorem nat_digits_unfold (n : Nat) : nat_digits n =
    if n < 10 then [Nat.digitChar n]
    else nat_digits (n / 10) ++ [Nat.digitChar (n % 10)] := by
  by_cases hn : n < 10
  · simp [nat_digits, nat_digits_aux, hn]
  · have h1 : nat_digits n =
        nat_digits_aux n (n / 10) ++ [Nat.digitChar (n % 10)] := by
      simp [nat_digits, nat_digits_aux, hn]
    rw [h1]
    simp only [hn, if_false]
    have h2 : nat_digits_aux n (n / 10) = nat_digits (n / 10) :=
      nat_digits_aux_irrel (n / 10) n (n / 10 + 1)
        (Nat.div_lt_self (by omega) (by omega)) (by omega)
    rw [h2]

theorem nat_digits_ne_nil (n : Nat) : nat_digits n ≠ [] := by
  rw [nat_digits_unfold]
  by_cases hn : n < 10 <;> simp [hn]

/-- Decimal digit strings are injective. -/
theorem nat_digits_inj (a : Nat) :
    ∀ b : Nat, nat_digits a = nat_digits b → a = b := by
  induction a using Nat.strong_induction_on with
  | _ a ih =>
    intro b h
    rw [nat_digits_unfold a, nat_digits_unfold b] at h
    by_cases ha : a < 10 <;> by_cases hb : b < 10
    · simp only [ha, hb, if_true] at h
      exact digitChar_inj a ha b hb (by simpa using h)
    · exfalso
      simp only [ha, hb, if_true, if_false] at h
      have hlen := congrArg List.length h
      simp only [List.length_append, List.length_cons, List.length_nil] at hlen
      exact nat_digits_ne_nil (b / 10) (List.eq_nil_of_length_eq_zero (by omega))
    · exfalso
      simp only [ha, hb, if_true, if_false] at h
      have hlen := congrArg List.length h
      simp only [List.length_append, List.length_cons, List.length_nil] at hlen
      exact nat_digits_ne_nil (a / 10) (List.eq_nil_of_length_eq_zero (by omega))
    · simp only [ha, hb, if_false] at h
      have h' := congrArg List.reverse h
      simp only [List.reverse_append, List.reverse_cons, List.reverse_nil,
        List.nil_append, List.singleton_append, List.cons.injEq] at h'
      obtain ⟨hhd, htl⟩ := h'
      have hmod : a % 10 = b % 10 :=
        digitChar_inj (a % 10) (by omega) (b % 10) (by omega) hhd
      have hdiv : a / 10 = b / 10 := by
        have hlt : a / 10 < a := Nat.div_lt_self (by omega) (by omega)
        exact ih (a / 10) hlt (b / 10) (List.reverse_injective htl)
      omega

theorem string_data_append (s t : String) : (s ++ t).data = s.data ++ t.data := by
  cases s; cases t; rfl

theorem string_ext {s t : String} (h : s.data = t.data) : s = t := by
  cases s; cases t; exact congrArg String.mk h

theorem nat_repr_inj {a b : Nat} (h : nat_repr a = nat_repr b) : a = b := by
  apply nat_digits_inj
  have h2 := congrArg String.data h
  simpa [nat_repr] using h2

/-- Rendered DFG node ids are injective in the counter value. -/
theorem mk_node_id_inj {a b : Nat} (h : mk_node_id a = mk_node_id b) : a = b := by
  apply nat_repr_inj
  have h2 := congrArg String.data h
  rw [mk_node_id, mk_node_id, string_data_append, string_data_append] at h2
  exact string_ext (List.append_cancel_left h2)

/-- Rendered DFG edge ids are injective in the counter value. -/
theorem mk_edge_id_inj {a b : Nat} (h : mk_edge_id a = mk_edge_id b) : a = b := by
  apply nat_repr_inj
  have h2 := congrArg String.data h
  rw [mk_edge_id, mk_edge_id, string_data_append, string_data_append] at h2
  exact string_ext (List.append_cancel_left h2)

/-! ## The scope-aware DFG builder (`dfg_builder.py`)

Builder-instance state becomes an explicit record threaded through every
operation. Python dicts (`variable_definitions`, `function_definitions`)
become association lists with the newest binding prepended —
`List.lookup` then finds the newest binding, matching dict overwrite
semantics. (For a *duplicate* function name Python's dict would keep a
single entry at the original insertion position while the association
list keeps both; no claim depends on the iteration order or duplicate
handling of the call-resolution post-pass.) -/

/-- The mutable fields of a `DFGBuilder` instance. -/
structure BuilderState where
  solidity_version : String
  current_dfg : Option DFG
  current_scope : Option String
  scope_stack : List String
  variable_definitions : List (String × String)
  function_definitions : List (String × String)
  node_counter : Nat
  edge_counter : Nat
deriving DecidableEq, Repr

/-- `DFGBuilder.__init__` (the legacy handler is disabled in the source). -/
def init_builder (solidity_version : String := "0.4.x") : BuilderState :=
  { solidity_version := solidity_version
    current_dfg := none
    current_scope := none
    scope_stack := []
    variable_definitions := []
    function_definitions := []
    node_counter := 0
    edge_counter := 0 }

/-- `generate_node_id`. -/
def generate_node_id (st : BuilderState) : BuilderState × String :=
  ({ st with node_counter := st.node_counter + 1 },
   mk_node_id (st.node_counter + 1))

/-- `generate_edge_id`. -/
def generate_edge_id (st : BuilderState) : BuilderState × String :=
  ({ st with edge_counter := st.edge_counter + 1 },
   mk_edge_id (st.edge_counter + 1))

/-- `_get_dfg_node_type`. -/
def get_dfg_node_type : ASTNode → String
  | ASTNode.functionNode _ is_ctor _ _ _ _ =>
      if is_ctor then "constructor_function" else "function"
  | ASTNode.variableNode _ is_state _ _ _ =>
      if is_state then "state_variable" else "local_variable"
  | ASTNode.expressionNode _ _ _ _ _ _ => "expression"
  | ASTNode.contractNode _ _ _ _ => "contract"
  | ASTNode.genericNode tag _ _ _ => tag

/-- The `name` attribute of an AST node. -/
def ast_name : ASTNode → Option String
  | ASTNode.contractNode name _ _ _ => name
  | ASTNode.functionNode name _ _ _ _ _ => name
  | ASTNode.variableNode name _ _ _ _ => name
  | ASTNode.expressionNode name _ _ _ _ _ => name
  | ASTNode.genericNode _ name _ _ => name

/-- The `text` attribute of an AST node. -/
def ast_text : ASTNode → Option String
  | ASTNode.contractNode _ _ _ text => text
  | ASTNode.functionNode _ _ _ _ _ text => text
  | ASTNode.variableNode _ _ _ _ text => text
  | ASTNode.expressionNode _ _ _ _ _ text => text
  | ASTNode.genericNode _ _ _ text => text

/-- `_get_node_name`: the `name` attribute if present and truthy. -/
def get_node_name (n : ASTNode) : Option String :=
  match ast_name n with
  | some s => if s == "" then none else some s
  | none => none

/-- `_get_node_data_type`: `getattr(ast_node, 'data_type', None)` if
truthy — only `VariableNode` has the attribute. -/
def get_node_data_type : ASTNode → Option String
  | ASTNode.variableNode _ _ data_type _ _ =>
      match data_type with
      | some s => if s == "" then none else some s
      | none => none
  | _ => none

/-- `DFG.add_node` applied to the current DFG (a no-op when there is no
current DFG, mirroring the `if self.current_dfg` guards). -/
def dfg_add_node (st : BuilderState) (node : DFGNode) : BuilderState :=
  match st.current_dfg with
  | none => st
  | some g => { st with current_dfg := some { g with nodes := g.nodes ++ [node] } }

/-- `_create_dfg_node`: generate a fresh id, classify, tag with the current
scope, and insert into the current DFG. -/
def create_dfg_node (st : BuilderState) (n : ASTNode) : BuilderState × DFGNode :=
  let (st1, node_id) := generate_node_id st
  let node : DFGNode :=
    { node_id := node_id
      ast_text := ast_text n
      node_type := get_dfg_node_type n
      name := get_node_name n
      data_type := get_node_data_type n
      scope := st1.current_scope
      properties := [] }
  (dfg_add_node st1 node, node)

/-- `_add_edge`: a no-op without a current DFG; otherwise generate a fresh
edge id and insert the edge. -/
def add_edge (st : BuilderState) (source_id target_id : String)
    (edge_type : EdgeType) (properties : List (String × String) := []) :
    BuilderState :=
  match st.current_dfg with
  | none => st
  | some g =>
    let (st1, edge_id) := generate_edge_id st
    let edge : DFGEdge :=
      { edge_id := edge_id
        source_node_id := source_id
        target_node_id := target_id
        edge_type := edge_type
        properties := properties }
    { st1 with current_dfg := some { g with edges := g.edges ++ [edge] } }

/-- `_enter_scope`. -/
def enter_scope (st : BuilderState) (scope_name : String) : BuilderState :=
  { st with scope_stack := st.scope_stack ++ [scope_name]
            current_scope := some scope_name }

/-- `_exit_scope`: pops only when more than one scope is on the stack. -/
def exit_scope (st : BuilderState) : BuilderState :=
  if st.scope_stack.length > 1 then
    let stack := st.scope_stack.dropLast
    { st with scope_stack := stack
              current_scope := stack.getLast? }
  else st

/-- Python truthiness of the parameter dict: the empty dict is falsy. -/
def param_truthy (p : ParamInfo) : Bool :=
  p.name.isSome || p.type.isSome

/-- `_create_parameter_dfg`: mint a virtual AST node id and a fresh DFG
node per declared (non-empty) parameter record. The virtual AST node has
no source text. -/
def create_parameter_dfg (st : BuilderState) (p : ParamInfo)
    (is_return : Bool) : BuilderState × Option DFGNode :=
  if !param_truthy p || st.current_dfg.isNone then (st, none)
  else
    let param_name := p.name.getD ("param_" ++ nat_repr st.node_counter)
    let param_type := p.type.getD "unknown"
    let (st1, _virtual_ast_id) := generate_node_id st
    let (st2, node_id) := generate_node_id st1
    let node : DFGNode :=
      { node_id := node_id
        ast_text := none
        node_type := "parameter"
        name := some param_name
        data_type := some param_type
        scope := st2.current_scope
        properties := [("is_return", if is_return then "True" else "False")] }
    (dfg_add_node st2 node, some node)

/-- `_handle_variable_reference`: def-use resolution in the current scope,
then the `global.<name>` retry. Both hits produce an edge. -/
def handle_variable_reference (st : BuilderState) (expr_name : Option String)
    (dfg_node_id : String) : BuilderState :=
  match expr_name with
  | none => st
  | some name =>
    if name == "" then st
    else
      let var_key := (st.current_scope.getD "None") ++ "." ++ name
      let st1 :=
        match st.variable_definitions.lookup var_key with
        | some def_id =>
            add_edge st def_id dfg_node_id EdgeType.data_dependency
              [("relation", "def-use")]
        | none => st
      let global_var_key := "global." ++ name
      match st1.variable_definitions.lookup global_var_key with
      | some def_id =>
          add_edge st1 def_id dfg_node_id EdgeType.data_dependency
            [("relation", "state-var-use")]
      | none => st1

/-- Python `a or default` on an optional string (`None` and `""` fall back
to the default). -/
def py_or_str (o : Option String) (d : String) : String :=
  match o with
  | some s => if s == "" then d else s
  | none => d

/-- The parameter and return-parameter loops of `_build_function_dfg`:
per record, `_create_parameter_dfg` then a `definition` edge from the
function node. -/
def build_params (st : BuilderState) (func_id : String)
    (ps : List ParamInfo) (is_return : Bool) : BuilderState :=
  ps.foldl
    (fun acc p =>
      let r := create_parameter_dfg acc p is_return
      match r.2 with
      | some node => add_edge r.1 func_id node.node_id EdgeType.definition
      | none => r.1)
    st

/-- The base-contract loop of `_build_contract_dfg`: a `definition` edge
to the synthetic id `contract_<baseName>` per inherited name. -/
def build_base_contract_edges (st : BuilderState) (contract_id : String)
    (bases : List String) : BuilderState :=
  bases.foldl
    (fun acc b =>
      add_edge acc contract_id ("contract_" ++ b) EdgeType.definition
        [("inheritance_type", "base_contract")])
    st

/-- The `if child_dfg:` guard of the child loops: link parent → child
when the recursive build produced a node. -/
def attach_child_edge (r : BuilderState × Option String) (parent_id : String)
    (et : EdgeType) : BuilderState :=
  match r.2 with
  | some cid => add_edge r.1 parent_id cid et
  | none => r.1

/-- The `if left_dfg:` / `if right_dfg:` / `if arg_dfg:` guards of
`_build_expression_dfg`: link operand → expression when the recursive
build produced a node. -/
def attach_operand_edge (r : BuilderState × Option String)
    (expr_id : String) : BuilderState :=
  match r.2 with
  | some oid => add_edge r.1 oid expr_id EdgeType.data_dependency
  | none => r.1

mutual

/-- `_build_node_dfg`: create the DFG node for this AST node (tagged with
the current scope), then dispatch on the node's class. Returns the new
DFG node's id (Python returns the node itself; callers only use its id). -/
def build_node_dfg (st : BuilderState) (n : ASTNode) :
    BuilderState × Option String :=
  match st.current_dfg with
  | none => (st, none)
  | some _ =>
    let c := create_dfg_node st n
    let st1 := c.1
    let dn := c.2
    match n with
    | ASTNode.contractNode name bases children _ =>
        let st2 := enter_scope st1 (py_or_str name "contract")
        let st3 := build_children_edges st2 dn.node_id EdgeType.definition
          children
        let st4 := build_base_contract_edges st3 dn.node_id bases
        (exit_scope st4, some dn.node_id)
    | ASTNode.functionNode name _ params ret_params children _ =>
        let function_scope := py_or_str name "anonymous" ++ "_function"
        let st2 := enter_scope st1 function_scope
        let st3 :=
          match name with
          | some nm =>
              if nm == "" then st2
              else { st2 with
                function_definitions :=
                  (nm, dn.node_id) :: st2.function_definitions }
          | none => st2
        let st4 := build_params st3 dn.node_id params false
        let st5 := build_children_edges st4 dn.node_id
          EdgeType.control_dependency children
        let st6 := build_params st5 dn.node_id ret_params true
        (exit_scope st6, some dn.node_id)
    | ASTNode.variableNode name _ _ initial_value _ =>
        let st2 :=
          match name with
          | some nm =>
              if nm == "" then st1
              else { st1 with
                variable_definitions :=
                  ((st1.current_scope.getD "None") ++ "." ++ nm, dn.node_id)
                    :: st1.variable_definitions }
          | none => st1
        let st3 :=
          match initial_value with
          | some v =>
              if v == "" then st2
              else add_edge st2 dn.node_id ("init_" ++ dn.node_id)
                EdgeType.data_dependency [("initialization", "True")]
          | none => st2
        (st3, some dn.node_id)
    | ASTNode.expressionNode name _ left right args _ =>
        let st2 :=
          match left with
          | ASTOpt.some l =>
              attach_operand_edge (build_node_dfg st1 l) dn.node_id
          | ASTOpt.none => st1
        let st3 :=
          match right with
          | ASTOpt.some rt =>
              attach_operand_edge (build_node_dfg st2 rt) dn.node_id
          | ASTOpt.none => st2
        let st4 := build_args_edges st3 dn.node_id args
        (handle_variable_reference st4 name dn.node_id, some dn.node_id)
    | ASTNode.genericNode _ _ children _ =>
        (build_children_edges st1 dn.node_id EdgeType.control_dependency
          children, some dn.node_id)

/-- The child loops of `_build_contract_dfg` / `_build_function_dfg` /
`_build_generic_dfg`: build each child's DFG subtree and link
parent → child with the given edge type. -/
def build_children_edges (st : BuilderState) (parent_id : String)
    (et : EdgeType) (children : ASTList) : BuilderState :=
  match children with
  | ASTList.nil => st
  | ASTList.cons c rest =>
    build_children_edges
      (attach_child_edge (build_node_dfg st c) parent_id et) parent_id et rest

/-- The argument loop of `_build_expression_dfg`: build each argument's
DFG subtree and link argument → parent with a `data_dependency` edge. -/
def build_args_edges (st : BuilderState) (parent_id : String)
    (args : ASTList) : BuilderState :=
  match args with
  | ASTList.nil => st
  | ASTList.cons a rest =>
    build_args_edges
      (attach_operand_edge (build_node_dfg st a) parent_id) parent_id rest

end

/-! Constructor-wise unfolding equations for the walk (proved once; all
later reasoning rewrites with these). -/

theorem build_node_dfg_contract_eq (st : BuilderState) (name : Option String)
    (bases : List String) (children : ASTList) (text : Option String) :
    build_node_dfg st (ASTNode.contractNode name bases children text) =
    match st.current_dfg with
    | none => (st, none)
    | some _ =>
      let c := create_dfg_node st (ASTNode.contractNode name bases children text)
      (exit_scope
        (build_base_contract_edges
          (build_children_edges (enter_scope c.1 (py_or_str name "contract"))
            c.2.node_id EdgeType.definition children)
          c.2.node_id bases),
       some c.2.node_id) := by
  conv_lhs => unfold build_node_dfg

theorem build_node_dfg_function_eq (st : BuilderState) (name : Option String)
    (is_ctor : Bool) (params ret_params : List ParamInfo) (children : ASTList)
    (text : Option String) :
    build_node_dfg st
      (ASTNode.functionNode name is_ctor params ret_params children text) =
    match st.current_dfg with
    | none => (st, none)
    | some _ =>
      let c := create_dfg_node st
        (ASTNode.functionNode name is_ctor params ret_params children text)
      let st2 := enter_scope c.1 (py_or_str name "anonymous" ++ "_function")
      let st3 :=
        match name with
        | some nm =>
            if nm == "" then st2
            else { st2 with
              function_definitions :=
                (nm, c.2.node_id) :: st2.function_definitions }
        | none => st2
      (exit_scope
        (build_params
          (build_children_edges (build_params st3 c.2.node_id params false)
            c.2.node_id EdgeType.control_dependency children)
          c.2.node_id ret_params true),
       some c.2.node_id) := by
  conv_lhs => unfold build_node_dfg

theorem build_node_dfg_variable_eq (st : BuilderState) (name : Option String)
    (is_state : Bool) (data_type initial_value text : Option String) :
    build_node_dfg st
      (ASTNode.variableNode name is_state data_type initial_value text) =
    match st.current_dfg with
    | none => (st, none)
    | some _ =>
      let c := create_dfg_node st
        (ASTNode.variableNode name is_state data_type initial_value text)
      let st2 :=
        match name with
        | some nm =>
            if nm == "" then c.1
            else { c.1 with
              variable_definitions :=
                ((c.1.current_scope.getD "None") ++ "." ++ nm, c.2.node_id)
                  :: c.1.variable_definitions }
        | none => c.1
      let st3 :=
        match initial_value with
        | some v =>
            if v == "" then st2
            else add_edge st2 c.2.node_id ("init_" ++ c.2.node_id)
              EdgeType.data_dependency [("initialization", "True")]
        | none => st2
      (st3, some c.2.node_id) := by
  conv_lhs => unfold build_node_dfg

theorem build_node_dfg_expression_eq (st : BuilderState)
    (name op : Option String) (left right : ASTOpt) (args : ASTList)
    (text : Option String) :
    build_node_dfg st (ASTNode.expressionNode name op left right args text) =
    match st.current_dfg with
    | none => (st, none)
    | some _ =>
      let c := create_dfg_node st
        (ASTNode.expressionNode name op left right args text)
      let st2 :=
        match left with
        | ASTOpt.some l =>
            attach_operand_edge (build_node_dfg c.1 l) c.2.node_id
        | ASTOpt.none => c.1
      let st3 :=
        match right with
        | ASTOpt.some rt =>
            attach_operand_edge (build_node_dfg st2 rt) c.2.node_id
        | ASTOpt.none => st2
      let st4 := build_args_edges st3 c.2.node_id args
      (handle_variable_reference st4 name c.2.node_id, some c.2.node_id) := by
  conv_lhs => unfold build_node_dfg

theorem build_node_dfg_generic_eq (st : BuilderState) (tag : String)
    (name : Option String) (children : ASTList) (text : Option String) :
    build_node_dfg st (ASTNode.genericNode tag name children text) =
    match st.current_dfg with
    | none => (st, none)
    | some _ =>
      let c := create_dfg_node st (ASTNode.genericNode tag name children text)
      (build_children_edges c.1 c.2.node_id EdgeType.control_dependency
        children, some c.2.node_id) := by
  conv_lhs => unfold build_node_dfg

theorem build_children_edges_nil_eq (st : BuilderState) (pid : String)
    (et : EdgeType) :
    build_children_edges st pid et ASTList.nil = st := by
  conv_lhs => unfold build_children_edges

theorem build_children_edges_cons_eq (st : BuilderState) (pid : String)
    (et : EdgeType) (c : ASTNode) (rest : ASTList) :
    build_children_edges st pid et (ASTList.cons c rest) =
    build_children_edges (attach_child_edge (build_node_dfg st c) pid et)
      pid et rest := by
  conv_lhs => unfold build_children_edges

theorem build_args_edges_nil_eq (st : BuilderState) (pid : String) :
    build_args_edges st pid ASTList.nil = st := by
  conv_lhs => unfold build_args_edges

theorem build_args_edges_cons_eq (st : BuilderState) (pid : String)
    (a : ASTNode) (rest : ASTList) :
    build_args_edges st pid (ASTList.cons a rest) =
    build_args_edges (attach_operand_edge (build_node_dfg st a) pid)
      pid rest := by
  conv_lhs => unfold build_args_edges

/-- Python `"sub" in s` substring membership, on the character lists. -/
def py_contains (s sub : String) : Bool :=
  decide (List.IsInfix sub.data s.data)

/-- `_build_inter_scope_flows`: for every recorded function name, scan
every `expression`-classified DFG node's source text for the substring
`"<name>("` and add a `function_call` edge on a match. The recorded
functions are iterated in insertion order (the association list is
newest-first, hence the reversal). -/
def build_inter_scope_flows (st : BuilderState) : BuilderState :=
  match st.current_dfg with
  | none => st
  | some g =>
    st.function_definitions.reverse.foldl
      (fun acc (fn : String × String) =>
        g.nodes.foldl
          (fun acc2 node =>
            if node.node_type == "expression" &&
                !((node.ast_text.getD "") == "") &&
                py_contains (node.ast_text.getD "") (fn.1 ++ "(") then
              add_edge acc2 fn.2 node.node_id EdgeType.function_call
            else acc2)
          acc)
      st

/-! ## Primitive state-preservation lemmas

Each builder primitive leaves the fields it does not mention untouched;
these projection equations drive all the walk invariants below. -/

@[simp] theorem add_edge_stack (st : BuilderState) (s t : String)
    (et : EdgeType) (ps : List (String × String)) :
    (add_edge st s t et ps).scope_stack = st.scope_stack := by
  unfold add_edge generate_edge_id; cases st.current_dfg <;> rfl

@[simp] theorem add_edge_current (st : BuilderState) (s t : String)
    (et : EdgeType) (ps : List (String × String)) :
    (add_edge st s t et ps).current_scope = st.current_scope := by
  unfold add_edge generate_edge_id; cases st.current_dfg <;> rfl

@[simp] theorem add_edge_vardefs (st : BuilderState) (s t : String)
    (et : EdgeType) (ps : List (String × String)) :
    (add_edge st s t et ps).variable_definitions = st.variable_definitions := by
  unfold add_edge generate_edge_id; cases st.current_dfg <;> rfl

@[simp] theorem add_edge_fundefs (st : BuilderState) (s t : String)
    (et : EdgeType) (ps : List (String × String)) :
    (add_edge st s t et ps).function_definitions = st.function_definitions := by
  unfold add_edge generate_edge_id; cases st.current_dfg <;> rfl

@[simp] theorem add_edge_node_counter (st : BuilderState) (s t : String)
    (et : EdgeType) (ps : List (String × String)) :
    (add_edge st s t et ps).node_counter = st.node_counter := by
  unfold add_edge generate_edge_id; cases st.current_dfg <;> rfl

@[simp] theorem add_edge_version (st : BuilderState) (s t : String)
    (et : EdgeType) (ps : List (String × String)) :
    (add_edge st s t et ps).solidity_version = st.solidity_version := by
  unfold add_edge generate_edge_id; cases st.current_dfg <;> rfl

@[simp] theorem create_dfg_node_stack (st : BuilderState) (n : ASTNode) :
    (create_dfg_node st n).1.scope_stack = st.scope_stack := by
  unfold create_dfg_node generate_node_id dfg_add_node
  cases st.current_dfg <;> rfl

@[simp] theorem create_dfg_node_current (st : BuilderState) (n : ASTNode) :
    (create_dfg_node st n).1.current_scope = st.current_scope := by
  unfold create_dfg_node generate_node_id dfg_add_node
  cases st.current_dfg <;> rfl

@[simp] theorem create_dfg_node_vardefs (st : BuilderState) (n : ASTNode) :
    (create_dfg_node st n).1.variable_definitions =
      st.variable_definitions := by
  unfold create_dfg_node generate_node_id dfg_add_node
  cases st.current_dfg <;> rfl

@[simp] theorem create_dfg_node_fundefs (st : BuilderState) (n : ASTNode) :
    (create_dfg_node st n).1.function_definitions =
      st.function_definitions := by
  unfold create_dfg_node generate_node_id dfg_add_node
  cases st.current_dfg <;> rfl

@[simp] theorem create_dfg_node_counter (st : BuilderState) (n : ASTNode) :
    (create_dfg_node st n).1.node_counter = st.node_counter + 1 := by
  unfold create_dfg_node generate_node_id dfg_add_node
  cases st.current_dfg <;> rfl

@[simp] theorem create_dfg_node_version (st : BuilderState) (n : ASTNode) :
    (create_dfg_node st n).1.solidity_version = st.solidity_version := by
  unfold create_dfg_node generate_node_id dfg_add_node
  cases st.current_dfg <;> rfl

/-- The DFG node returned by `_create_dfg_node`, in closed form. -/
theorem create_dfg_node_snd (st : BuilderState) (n : ASTNode) :
    (create_dfg_node st n).2 =
    { node_id := mk_node_id (st.node_counter + 1)
      ast_text := ast_text n
      node_type := get_dfg_node_type n
      name := get_node_name n
      data_type := get_node_data_type n
      scope := st.current_scope
      properties := [] } := by
  unfold create_dfg_node generate_node_id
  rfl

@[simp] theorem create_parameter_dfg_stack (st : BuilderState) (p : ParamInfo)
    (ir : Bool) :
    (create_parameter_dfg st p ir).1.scope_stack = st.scope_stack := by
  unfold create_parameter_dfg generate_node_id dfg_add_node
  split
  · rfl
  · cases st.current_dfg <;> rfl

@[simp] theorem create_parameter_dfg_current (st : BuilderState) (p : ParamInfo)
    (ir : Bool) :
    (create_parameter_dfg st p ir).1.current_scope = st.current_scope := by
  unfold create_parameter_dfg generate_node_id dfg_add_node
  split
  · rfl
  · cases st.current_dfg <;> rfl

@[simp] theorem create_parameter_dfg_vardefs (st : BuilderState) (p : ParamInfo)
    (ir : Bool) :
    (create_parameter_dfg st p ir).1.variable_definitions =
      st.variable_definitions := by
  unfold create_parameter_dfg generate_node_id dfg_add_node
  split
  · rfl
  · cases st.current_dfg <;> rfl

@[simp] theorem create_parameter_dfg_fundefs (st : BuilderState) (p : ParamInfo)
    (ir : Bool) :
    (create_parameter_dfg st p ir).1.function_definitions =
      st.function_definitions := by
  unfold create_parameter_dfg generate_node_id dfg_add_node
  split
  · rfl
  · cases st.current_dfg <;> rfl

@[simp] theorem handle_variable_reference_stack (st : BuilderState)
    (en : Option String) (nid : String) :
    (handle_variable_reference st en nid).scope_stack = st.scope_stack := by
  unfold handle_variable_reference
  cases en with
  | none => rfl
  | some name =>
    by_cases he : name == ""
    · simp [he]
    · simp only [he, Bool.false_eq_true, if_false]
      cases h1 : List.lookup ((st.current_scope.getD "None") ++ "." ++ name)
          st.variable_definitions <;>
        simp only [h1] <;>
        cases h2 : List.lookup ("global." ++ name) st.variable_definitions <;>
        simp [h2]

@[simp] theorem handle_variable_reference_current (st : BuilderState)
    (en : Option String) (nid : String) :
    (handle_variable_reference st en nid).current_scope = st.current_scope := by
  unfold handle_variable_reference
  cases en with
  | none => rfl
  | some name =>
    by_cases he : name == ""
    · simp [he]
    · simp only [he, Bool.false_eq_true, if_false]
      cases h1 : List.lookup ((st.current_scope.getD "None") ++ "." ++ name)
          st.variable_definitions <;>
        simp only [h1] <;>
        cases h2 : List.lookup ("global." ++ name) st.variable_definitions <;>
        simp [h2]

@[simp] theorem handle_variable_reference_vardefs (st : BuilderState)
    (en : Option String) (nid : String) :
    (handle_variable_reference st en nid).variable_definitions =
      st.variable_definitions := by
  unfold handle_variable_reference
  cases en with
  | none => rfl
  | some name =>
    by_cases he : name == ""
    · simp [he]
    · simp only [he, Bool.false_eq_true, if_false]
      cases h1 : List.lookup ((st.current_scope.getD "None") ++ "." ++ name)
          st.variable_definitions <;>
        simp only [h1] <;>
        cases h2 : List.lookup ("global." ++ name) st.variable_definitions <;>
        simp [h2]

@[simp] theorem handle_variable_reference_fundefs (st : BuilderState)
    (en : Option String) (nid : String) :
    (handle_variable_reference st en nid).function_definitions =
      st.function_definitions := by
  unfold handle_variable_reference
  cases en with
  | none => rfl
  | some name =>
    by_cases he : name == ""
    · simp [he]
    · simp only [he, Bool.false_eq_true, if_false]
      cases h1 : List.lookup ((st.current_scope.getD "None") ++ "." ++ name)
          st.variable_definitions <;>
        simp only [h1] <;>
        cases h2 : List.lookup ("global." ++ name) st.variable_definitions <;>
        simp [h2]

@[simp] theorem build_params_stack (ps : List ParamInfo) (st : BuilderState)
    (fid : String) (ir : Bool) :
    (build_params st fid ps ir).scope_stack = st.scope_stack := by
  induction ps generalizing st with
  | nil => rfl
  | cons p rest ihp =>
    unfold build_params at ihp ⊢
    simp only [List.foldl_cons]
    rw [ihp]
    split <;> simp

@[simp] theorem build_params_current (ps : List ParamInfo) (st : BuilderState)
    (fid : String) (ir : Bool) :
    (build_params st fid ps ir).current_scope = st.current_scope := by
  induction ps generalizing st with
  | nil => rfl
  | cons p rest ihp =>
    unfold build_params at ihp ⊢
    simp only [List.foldl_cons]
    rw [ihp]
    split <;> simp

@[simp] theorem build_base_contract_edges_stack (bs : List String)
    (st : BuilderState) (cid : String) :
    (build_base_contract_edges st cid bs).scope_stack = st.scope_stack := by
  induction bs generalizing st with
  | nil => rfl
  | cons b rest ihb =>
    unfold build_base_contract_edges at ihb ⊢
    simp only [List.foldl_cons]
    rw [ihb]
    simp

@[simp] theorem build_base_contract_edges_current (bs : List String)
    (st : BuilderState) (cid : String) :
    (build_base_contract_edges st cid bs).current_scope = st.current_scope := by
  induction bs generalizing st with
  | nil => rfl
  | cons b rest ihb =>
    unfold build_base_contract_edges at ihb ⊢
    simp only [List.foldl_cons]
    rw [ihb]
    simp

@[simp] theorem attach_child_edge_stack (r : BuilderState × Option String)
    (pid : String) (et : EdgeType) :
    (attach_child_edge r pid et).scope_stack = r.1.scope_stack := by
  unfold attach_child_edge; cases r.2 <;> simp

@[simp] theorem attach_child_edge_current (r : BuilderState × Option String)
    (pid : String) (et : EdgeType) :
    (attach_child_edge r pid et).current_scope = r.1.current_scope := by
  unfold attach_child_edge; cases r.2 <;> simp

@[simp] theorem attach_operand_edge_stack (r : BuilderState × Option String)
    (eid : String) :
    (attach_operand_edge r eid).scope_stack = r.1.scope_stack := by
  unfold attach_operand_edge; cases r.2 <;> simp

@[simp] theorem attach_operand_edge_current (r : BuilderState × Option String)
    (eid : String) :
    (attach_operand_edge r eid).current_scope = r.1.current_scope := by
  unfold attach_operand_edge; cases r.2 <;> simp

/-! ## Scope-stack discipline (the state machine of spec section 4.2) -/

/-- The scope-stack well-formedness that `build_dfg` establishes: a
non-empty stack whose top is the current scope. -/
def scope_ok (st : BuilderState) : Prop :=
  st.scope_stack ≠ [] ∧ st.current_scope = st.scope_stack.getLast?

theorem scope_ok_congr {st st' : BuilderState}
    (h1 : st'.scope_stack = st.scope_stack)
    (h2 : st'.current_scope = st.current_scope) (hok : scope_ok st) :
    scope_ok st' := by
  constructor
  · rw [h1]; exact hok.1
  · rw [h1, h2]; exact hok.2

theorem enter_scope_ok (st : BuilderState) (s : String) :
    scope_ok (enter_scope st s) := by
  constructor
  · simp [enter_scope]
  · simp [enter_scope]

theorem enter_scope_stack (st : BuilderState) (s : String) :
    (enter_scope st s).scope_stack = st.scope_stack ++ [s] := rfl

/-- Exiting a scope pushed on a non-empty stack pops exactly that scope
and restores the previous top as the current scope. -/
theorem exit_scope_of_append (X : BuilderState) (base : List String)
    (s : String) (hbase : base ≠ []) (hX : X.scope_stack = base ++ [s]) :
    (exit_scope X).scope_stack = base ∧
    (exit_scope X).current_scope = base.getLast? ∧
    (exit_scope X).variable_definitions = X.variable_definitions ∧
    (exit_scope X).function_definitions = X.function_definitions ∧
    (exit_scope X).current_dfg = X.current_dfg ∧
    (exit_scope X).node_counter = X.node_counter ∧
    (exit_scope X).solidity_version = X.solidity_version := by
  have hlen : X.scope_stack.length > 1 := by
    rw [hX]
    cases base with
    | nil => exact absurd rfl hbase
    | cons a l => simp
  unfold exit_scope
  rw [if_pos hlen]
  refine ⟨?_, ?_, rfl, rfl, rfl, rfl, rfl⟩
  · show X.scope_stack.dropLast = base
    rw [hX]; simp
  · show X.scope_stack.dropLast.getLast? = base.getLast?
    rw [hX]; simp

/-- `build_dfg`: absent input → absent output with no state change;
otherwise initialize a fresh DFG and the scope machinery, walk the tree,
run the call-resolution post-pass, and return the built DFG. The id
counters are deliberately not reset. -/
def build_dfg (st : BuilderState) (ast_root : Option ASTNode)
    (contract_name : String) : BuilderState × Option DFG :=
  match ast_root with
  | none => (st, none)
  | some root =>
    let st1 :=
      { st with
        current_dfg := some
          { contract_name := contract_name
            solidity_version := st.solidity_version
            nodes := []
            edges := [] }
        scope_stack := ["global"]
        current_scope := some "global"
        variable_definitions := []
        function_definitions := [] }
    let st2 := (build_node_dfg st1 root).1
    let st3 := build_inter_scope_flows st2
    (st3, st3.current_dfg)


mutual

theorem build_node_dfg_scope : ∀ (n : ASTNode) (st : BuilderState),
    scope_ok st →
    (build_node_dfg st n).1.scope_stack = st.scope_stack ∧
    (build_node_dfg st n).1.current_scope = st.current_scope
  | ASTNode.contractNode name bases children text, st, hok => by
    rw [build_node_dfg_contract_eq]
    cases hd : st.current_dfg with
    | none => exact ⟨rfl, rfl⟩
    | some g =>
      dsimp only
      set c := create_dfg_node st
        (ASTNode.contractNode name bases children text) with hc
      set sname := py_or_str name "contract" with hsn
      have h3 := build_children_edges_scope children (enter_scope c.1 sname)
        c.2.node_id EdgeType.definition (enter_scope_ok _ _)
      have hstack4 : (build_base_contract_edges
          (build_children_edges (enter_scope c.1 sname) c.2.node_id
            EdgeType.definition children) c.2.node_id bases).scope_stack =
          st.scope_stack ++ [sname] := by
        rw [build_base_contract_edges_stack, h3.1, enter_scope_stack,
          create_dfg_node_stack]
      have hex := exit_scope_of_append _ st.scope_stack sname hok.1 hstack4
      exact ⟨hex.1, hex.2.1.trans hok.2.symm⟩
  | ASTNode.functionNode name is_ctor params ret_params children text, st,
      hok => by
    rw [build_node_dfg_function_eq]
    cases hd : st.current_dfg with
    | none => exact ⟨rfl, rfl⟩
    | some g =>
      dsimp only
      set c := create_dfg_node st
        (ASTNode.functionNode name is_ctor params ret_params children text)
        with hc
      set fname := py_or_str name "anonymous" ++ "_function" with hfn
      set st2 := enter_scope c.1 fname with hst2
      set st3 := (match name with
        | some nm =>
            if nm == "" then st2
            else { st2 with
              function_definitions :=
                (nm, c.2.node_id) :: st2.function_definitions }
        | none => st2) with hst3
      have h3s : st3.scope_stack = st2.scope_stack := by
        rw [hst3]; cases name with
        | none => rfl
        | some nm => dsimp only; split <;> rfl
      have h3c : st3.current_scope = st2.current_scope := by
        rw [hst3]; cases name with
        | none => rfl
        | some nm => dsimp only; split <;> rfl
      have hok3 : scope_ok st3 :=
        scope_ok_congr h3s h3c (enter_scope_ok _ _)
      have hokp : scope_ok (build_params st3 c.2.node_id params false) :=
        scope_ok_congr (build_params_stack _ _ _ _)
          (build_params_current _ _ _ _) hok3
      have h5 := build_children_edges_scope children
        (build_params st3 c.2.node_id params false) c.2.node_id
        EdgeType.control_dependency hokp
      have hstack6 : (build_params
          (build_children_edges (build_params st3 c.2.node_id params false)
            c.2.node_id EdgeType.control_dependency children)
          c.2.node_id ret_params true).scope_stack =
          st.scope_stack ++ [fname] := by
        rw [build_params_stack, h5.1, build_params_stack, h3s,
          enter_scope_stack, create_dfg_node_stack]
      have hex := exit_scope_of_append _ st.scope_stack fname hok.1 hstack6
      exact ⟨hex.1, hex.2.1.trans hok.2.symm⟩
  | ASTNode.variableNode name is_state data_type initial_value text, st,
      hok => by
    rw [build_node_dfg_variable_eq]
    cases hd : st.current_dfg with
    | none => exact ⟨rfl, rfl⟩
    | some g =>
      dsimp only
      set c := create_dfg_node st
        (ASTNode.variableNode name is_state data_type initial_value text)
        with hc
      set st2 := (match name with
        | some nm =>
            if nm == "" then c.1
            else { c.1 with
              variable_definitions :=
                ((c.1.current_scope.getD "None") ++ "." ++ nm, c.2.node_id)
                  :: c.1.variable_definitions }
        | none => c.1) with hst2
      have h2s : st2.scope_stack = st.scope_stack := by
        rw [hst2]; cases name with
        | none => exact create_dfg_node_stack st _
        | some nm =>
          dsimp only; split
          · exact create_dfg_node_stack st _
          · exact create_dfg_node_stack st _
      have h2c : st2.current_scope = st.current_scope := by
        rw [hst2]; cases name with
        | none => exact create_dfg_node_current st _
        | some nm =>
          dsimp only; split
          · exact create_dfg_node_current st _
          · exact create_dfg_node_current st _
      cases initial_value with
      | none => exact ⟨h2s, h2c⟩
      | some v =>
        dsimp only
        split
        · exact ⟨h2s, h2c⟩
        · refine ⟨?_, ?_⟩
          · rw [add_edge_stack]; exact h2s
          · rw [add_edge_current]; exact h2c
  | ASTNode.expressionNode name op left right args text, st, hok => by
    rw [build_node_dfg_expression_eq]
    cases hd : st.current_dfg with
    | none => exact ⟨rfl, rfl⟩
    | some g =>
      dsimp only
      have hok1 : scope_ok (create_dfg_node st
          (ASTNode.expressionNode name op left right args text)).1 :=
        scope_ok_congr (create_dfg_node_stack _ _)
          (create_dfg_node_current _ _) hok
      cases left with
      | none =>
        cases right with
        | none =>
          have h4 := build_args_edges_scope args _ (create_dfg_node st
            (ASTNode.expressionNode name op ASTOpt.none ASTOpt.none args
              text)).2.node_id hok1
          refine ⟨?_, ?_⟩
          · rw [handle_variable_reference_stack, h4.1, create_dfg_node_stack]
          · rw [handle_variable_reference_current, h4.2,
              create_dfg_node_current]
        | some rt =>
          have hr := build_node_dfg_scope rt _ hok1
          have hok3 : scope_ok (attach_operand_edge
              (build_node_dfg (create_dfg_node st (ASTNode.expressionNode
                name op ASTOpt.none (ASTOpt.some rt) args text)).1 rt)
              (create_dfg_node st (ASTNode.expressionNode name op ASTOpt.none
                (ASTOpt.some rt) args text)).2.node_id) := by
            refine scope_ok_congr ?_ ?_ hok
            · rw [attach_operand_edge_stack, hr.1, create_dfg_node_stack]
            · rw [attach_operand_edge_current, hr.2, create_dfg_node_current]
          have h4 := build_args_edges_scope args _ (create_dfg_node st
            (ASTNode.expressionNode name op ASTOpt.none (ASTOpt.some rt) args
              text)).2.node_id hok3
          refine ⟨?_, ?_⟩
          · rw [handle_variable_reference_stack, h4.1,
              attach_operand_edge_stack, hr.1, create_dfg_node_stack]
          · rw [handle_variable_reference_current, h4.2,
              attach_operand_edge_current, hr.2, create_dfg_node_current]
      | some l =>
        have hl := build_node_dfg_scope l _ hok1
        cases right with
        | none =>
          have hok2 : scope_ok (attach_operand_edge
              (build_node_dfg (create_dfg_node st (ASTNode.expressionNode
                name op (ASTOpt.some l) ASTOpt.none args text)).1 l)
              (create_dfg_node st (ASTNode.expressionNode name op
                (ASTOpt.some l) ASTOpt.none args text)).2.node_id) := by
            refine scope_ok_congr ?_ ?_ hok
            · rw [attach_operand_edge_stack, hl.1, create_dfg_node_stack]
            · rw [attach_operand_edge_current, hl.2, create_dfg_node_current]
          have h4 := build_args_edges_scope args _ (create_dfg_node st
            (ASTNode.expressionNode name op (ASTOpt.some l) ASTOpt.none args
              text)).2.node_id hok2
          refine ⟨?_, ?_⟩
          · rw [handle_variable_reference_stack, h4.1,
              attach_operand_edge_stack, hl.1, create_dfg_node_stack]
          · rw [handle_variable_reference_current, h4.2,
              attach_operand_edge_current, hl.2, create_dfg_node_current]
        | some rt =>
          have hok2 : scope_ok (attach_operand_edge
              (build_node_dfg (create_dfg_node st (ASTNode.expressionNode
                name op (ASTOpt.some l) (ASTOpt.some rt) args text)).1 l)
              (create_dfg_node st (ASTNode.expressionNode name op
                (ASTOpt.some l) (ASTOpt.some rt) args text)).2.node_id) := by
            refine scope_ok_congr ?_ ?_ hok
            · rw [attach_operand_edge_stack, hl.1, create_dfg_node_stack]
            · rw [attach_operand_edge_current, hl.2, create_dfg_node_current]
          have hr := build_node_dfg_scope rt _ hok2
          have hok3 : scope_ok (attach_operand_edge (build_node_dfg
              (attach_operand_edge (build_node_dfg (create_dfg_node st
                (ASTNode.expressionNode name op (ASTOpt.some l)
                  (ASTOpt.some rt) args text)).1 l)
                (create_dfg_node st (ASTNode.expressionNode name op
                  (ASTOpt.some l) (ASTOpt.some rt) args text)).2.node_id) rt)
              (create_dfg_node st (ASTNode.expressionNode name op
                (ASTOpt.some l) (ASTOpt.some rt) args text)).2.node_id) := by
            refine scope_ok_congr ?_ ?_ hok2
            · rw [attach_operand_edge_stack, hr.1]
            · rw [attach_operand_edge_current, hr.2]
          have h4 := build_args_edges_scope args _ (create_dfg_node st
            (ASTNode.expressionNode name op (ASTOpt.some l) (ASTOpt.some rt)
              args text)).2.node_id hok3
          refine ⟨?_, ?_⟩
          · rw [handle_variable_reference_stack, h4.1,
              attach_operand_edge_stack, hr.1, attach_operand_edge_stack,
              hl.1, create_dfg_node_stack]
          · rw [handle_variable_reference_current, h4.2,
              attach_operand_edge_current, hr.2, attach_operand_edge_current,
              hl.2, create_dfg_node_current]
  | ASTNode.genericNode tag name children text, st, hok => by
    rw [build_node_dfg_generic_eq]
    cases hd : st.current_dfg with
    | none => exact ⟨rfl, rfl⟩
    | some g =>
      dsimp only
      have hok1 : scope_ok (create_dfg_node st
          (ASTNode.genericNode tag name children text)).1 :=
        scope_ok_congr (create_dfg_node_stack _ _)
          (create_dfg_node_current _ _) hok
      have h3 := build_children_edges_scope children
        (create_dfg_node st (ASTNode.genericNode tag name children text)).1
        (create_dfg_node st
          (ASTNode.genericNode tag name children text)).2.node_id
        EdgeType.control_dependency hok1
      refine ⟨?_, ?_⟩
      · rw [h3.1, create_dfg_node_stack]
      · rw [h3.2, create_dfg_node_current]

theorem build_children_edges_scope : ∀ (cs : ASTList) (st : BuilderState)
    (pid : String) (et : EdgeType), scope_ok st →
    (build_children_edges st pid et cs).scope_stack = st.scope_stack ∧
    (build_children_edges st pid et cs).current_scope = st.current_scope
  | ASTList.nil, st, pid, et, hok => by
    rw [build_children_edges_nil_eq]; exact ⟨rfl, rfl⟩
  | ASTList.cons c rest, st, pid, et, hok => by
    rw [build_children_edges_cons_eq]
    have hc := build_node_dfg_scope c st hok
    have hms : (attach_child_edge (build_node_dfg st c) pid et).scope_stack =
        st.scope_stack := by rw [attach_child_edge_stack, hc.1]
    have hmc : (attach_child_edge (build_node_dfg st c) pid et).current_scope =
        st.current_scope := by rw [attach_child_edge_current, hc.2]
    have hr := build_children_edges_scope rest _ pid et
      (scope_ok_congr hms hmc hok)
    exact ⟨hr.1.trans hms, hr.2.trans hmc⟩

theorem build_args_edges_scope : ∀ (args : ASTList) (st : BuilderState)
    (pid : String), scope_ok st →
    (build_args_edges st pid args).scope_stack = st.scope_stack ∧
    (build_args_edges st pid args).current_scope = st.current_scope
  | ASTList.nil, st, pid, hok => by
    rw [build_args_edges_nil_eq]; exact ⟨rfl, rfl⟩
  | ASTList.cons a rest, st, pid, hok => by
    rw [build_args_edges_cons_eq]
    have ha := build_node_dfg_scope a st hok
    have hms : (attach_operand_edge (build_node_dfg st a) pid).scope_stack =
        st.scope_stack := by rw [attach_operand_edge_stack, ha.1]
    have hmc : (attach_operand_edge (build_node_dfg st a) pid).current_scope =
        st.current_scope := by rw [attach_operand_edge_current, ha.2]
    have hr := build_args_edges_scope rest _ pid
      (scope_ok_congr hms hmc hok)
    exact ⟨hr.1.trans hms, hr.2.trans hmc⟩

end

/-- Folding a state-transformer that preserves a projection preserves the
projection. -/
theorem foldl_proj_eq {α β : Type} (proj : BuilderState → β)
    (f : BuilderState → α → BuilderState)
    (hf : ∀ s a, proj (f s a) = proj s) :
    ∀ (l : List α) (s : BuilderState), proj (l.foldl f s) = proj s := by
  intro l
  induction l with
  | nil => intro s; rfl
  | cons a tl ih => intro s; rw [List.foldl_cons, ih, hf]

@[simp] theorem build_inter_scope_flows_stack (st : BuilderState) :
    (build_inter_scope_flows st).scope_stack = st.scope_stack := by
  unfold build_inter_scope_flows
  cases hd : st.current_dfg with
  | none => rfl
  | some g =>
    apply foldl_proj_eq
    intro s fn
    apply foldl_proj_eq
    intro s2 node
    split <;> simp

@[simp] theorem build_inter_scope_flows_current (st : BuilderState) :
    (build_inter_scope_flows st).current_scope = st.current_scope := by
  unfold build_inter_scope_flows
  cases hd : st.current_dfg with
  | none => rfl
  | some g =>
    apply foldl_proj_eq
    intro s fn
    apply foldl_proj_eq
    intro s2 node
    split <;> simp

/-- C7: `build_dfg` initializes the scope stack to exactly `["global"]`
(with `global` as the current scope), and when it returns the stack is
restored to exactly `["global"]` with `global` current again — every
scope pushed for a contract or function subtree is popped when the
subtree completes (the mutual lemma `build_node_dfg_scope`); and every
DFGNode is tagged, at its creation, with the current scope, which under
the maintained well-formedness equals the top of the scope stack. -/
theorem claim_C7 (st : BuilderState) (root : ASTNode) (cname : String) :
    ((build_dfg st (some root) cname).1.scope_stack = ["global"] ∧
     (build_dfg st (some root) cname).1.current_scope = some "global") ∧
    (∀ (st' : BuilderState) (n : ASTNode), scope_ok st' →
      (create_dfg_node st' n).2.scope = st'.current_scope ∧
      (create_dfg_node st' n).2.scope = st'.scope_stack.getLast?) := by
  constructor
  · unfold build_dfg
    dsimp only
    set st1 : BuilderState :=
      { st with
        current_dfg := some
          { contract_name := cname
            solidity_version := st.solidity_version
            nodes := []
            edges := [] }
        scope_stack := ["global"]
        current_scope := some "global"
        variable_definitions := []
        function_definitions := [] } with hst1
    have hok1 : scope_ok st1 := by
      constructor
      · rw [hst1]; simp
      · rw [hst1]; simp
    have hw := build_node_dfg_scope root st1 hok1
    constructor
    · rw [build_inter_scope_flows_stack, hw.1]
    · rw [build_inter_scope_flows_current, hw.2]
  · intro st' n hok'
    rw [create_dfg_node_snd]
    exact ⟨rfl, hok'.2⟩

/-- Witness for C7 at a concrete builder state and one-node AST. -/
theorem claim_C7_witness :
    ((build_dfg init_builder
        (some (ASTNode.genericNode "source_file" none ASTList.nil none))
        "C").1.scope_stack = ["global"] ∧
     (build_dfg init_builder
        (some (ASTNode.genericNode "source_file" none ASTList.nil none))
        "C").1.current_scope = some "global") ∧
    (create_dfg_node
      { init_builder with
        scope_stack := ["global"], current_scope := some "global" }
      (ASTNode.genericNode "block" none ASTList.nil none)).2.scope =
      some "global" :=
  ⟨(claim_C7 init_builder
      (ASTNode.genericNode "source_file" none ASTList.nil none) "C").1,
   ((claim_C7 init_builder
      (ASTNode.genericNode "source_file" none ASTList.nil none) "C").2
      { init_builder with
        scope_stack := ["global"], current_scope := some "global" }
      (ASTNode.genericNode "block" none ASTList.nil none)
      (by constructor <;> simp)).1⟩

/-- C8: calling `build_dfg` with an absent AST root returns absent
immediately, leaving the builder state — scope stack, definition tables,
id counters, current DFG — exactly as it was (the guard precedes every
assignment in the source). -/
theorem claim_C8 (st : BuilderState) (cname : String) :
    build_dfg st none cname = (st, none) := rfl

/-! ## The core walk invariant

`wparts bn A st g st' g' newN newE newV newF` says: the step from builder
state `st` (current DFG `g`) to `st'` (current DFG `g'`) appended exactly
`newN` nodes, `newE` edges, and prepended exactly `newV` / `newF` table
bindings, where

* every appended node carries a fresh id strictly above the starting
  counter;
* every new table binding points at an appended node;
* every new table binding and every appended edge's source is an
  appended node, a variable-table value from before the step (for edge
  sources), or one of the explicitly allowed ids `A`;
* every appended edge's target is a node of the resulting DFG, a
  synthetic `contract_<b>` for an inherited base name `b ∈ bn`, or the
  synthetic `init_<sourceId>` of its own source. -/

/-- The ids of the nodes of a DFG. -/
def node_ids (g : DFG) : List String := g.nodes.map DFGNode.node_id

/-- The values (DFG node ids) of a definition table. -/
def table_values (t : List (String × String)) : List String :=
  t.map Prod.snd

/-! All inherited base-contract names occurring anywhere in an AST. -/

mutual

def ast_base_names : ASTNode → List String
  | ASTNode.contractNode _ bases children _ =>
      bases ++ ast_base_names_list children
  | ASTNode.functionNode _ _ _ _ children _ => ast_base_names_list children
  | ASTNode.variableNode _ _ _ _ _ => []
  | ASTNode.expressionNode _ _ left right args _ =>
      ast_base_names_opt left ++ ast_base_names_opt right ++
        ast_base_names_list args
  | ASTNode.genericNode _ _ children _ => ast_base_names_list children

def ast_base_names_list : ASTList → List String
  | ASTList.nil => []
  | ASTList.cons c tl => ast_base_names c ++ ast_base_names_list tl

def ast_base_names_opt : ASTOpt → List String
  | ASTOpt.none => []
  | ASTOpt.some n => ast_base_names n

end

/-- `ASTList` as a plain list. -/
def ASTList.toList : ASTList → List ASTNode
  | ASTList.nil => []
  | ASTList.cons c tl => c :: tl.toList

/-- The builder-state invariant maintained throughout a `build_dfg` run:
a DFG is current, both definition tables point only at existing nodes,
and every existing node id is a rendered id bounded by the counter. -/
structure BInv (st : BuilderState) (g : DFG) : Prop where
  dfg_eq : st.current_dfg = some g
  var_closed : ∀ v ∈ table_values st.variable_definitions, v ∈ node_ids g
  fun_closed : ∀ v ∈ table_values st.function_definitions, v ∈ node_ids g
  ids_bounded : ∀ i ∈ node_ids g, ∃ k, k ≤ st.node_counter ∧ i = mk_node_id k

/-- The step relation of one walk fragment: exactly `newN` nodes and
`newE` edges are appended, exactly `newV` / `newF` bindings are
prepended; appended nodes are fresh; new bindings and new edge sources
are justified by the appended nodes, the variable table as of the start
of the step, or the caller-supplied allowance `A`; edge targets are
nodes of the resulting DFG or the two synthetic forms. -/
def wparts (bn A : List String) (st : BuilderState) (g : DFG)
    (st' : BuilderState) (g' : DFG) (newN : List DFGNode)
    (newE : List DFGEdge) (newV newF : List (String × String)) : Prop :=
  st'.current_dfg = some g' ∧
  st.node_counter ≤ st'.node_counter ∧
  g'.nodes = g.nodes ++ newN ∧
  g'.edges = g.edges ++ newE ∧
  st'.variable_definitions = newV ++ st.variable_definitions ∧
  st'.function_definitions = newF ++ st.function_definitions ∧
  (∀ nd ∈ newN, ∃ k, st.node_counter < k ∧ k ≤ st'.node_counter ∧
     nd.node_id = mk_node_id k) ∧
  (∀ v ∈ table_values newV, v ∈ newN.map DFGNode.node_id ∨ v ∈ A) ∧
  (∀ v ∈ table_values newF, v ∈ newN.map DFGNode.node_id ∨ v ∈ A) ∧
  (∀ e ∈ newE,
    (e.source_node_id ∈ newN.map DFGNode.node_id ∨
     e.source_node_id ∈ table_values st.variable_definitions ∨
     e.source_node_id ∈ A) ∧
    (e.target_node_id ∈ node_ids g' ∨
     (∃ b ∈ bn, e.target_node_id = "contract_" ++ b) ∨
     e.target_node_id = "init_" ++ e.source_node_id))

theorem wparts_refl (bn A : List String) (st : BuilderState) (g : DFG)
    (hd : st.current_dfg = some g) :
    wparts bn A st g st g [] [] [] [] := by
  refine ⟨hd, le_rfl, by simp, by simp, by simp, by simp, ?_, ?_, ?_, ?_⟩ <;>
    intro x hx <;> simp [table_values] at hx

/-- Step composition: the second step's allowance must be covered by the
first step's new nodes or the first step's allowance. -/
theorem wparts_trans {bn A1 A2 : List String} {st st1 st2 : BuilderState}
    {g g1 g2 : DFG} {N1 N2 : List DFGNode} {E1 E2 : List DFGEdge}
    {V1 V2 F1 F2 : List (String × String)}
    (h1 : wparts bn A1 st g st1 g1 N1 E1 V1 F1)
    (h2 : wparts bn A2 st1 g1 st2 g2 N2 E2 V2 F2)
    (hA : ∀ x ∈ A2, x ∈ N1.map DFGNode.node_id ∨ x ∈ A1) :
    wparts bn A1 st g st2 g2 (N1 ++ N2) (E1 ++ E2) (V2 ++ V1)
      (F2 ++ F1) := by
  obtain ⟨hd1, hc1, hn1, he1, hv1, hf1, hfresh1, hvn1, hfn1, hedge1⟩ := h1
  obtain ⟨hd2, hc2, hn2, he2, hv2, hf2, hfresh2, hvn2, hfn2, hedge2⟩ := h2
  have hliftN : ∀ x, x ∈ N1.map DFGNode.node_id ∨ x ∈ A1 →
      x ∈ (N1 ++ N2).map DFGNode.node_id ∨
      x ∈ table_values st.variable_definitions ∨ x ∈ A1 := by
    intro x hx
    cases hx with
    | inl h => exact Or.inl (by
        simp only [List.map_append, List.mem_append]; exact Or.inl h)
    | inr h => exact Or.inr (Or.inr h)
  have hsrc_lift : ∀ x, x ∈ table_values st1.variable_definitions →
      x ∈ (N1 ++ N2).map DFGNode.node_id ∨
      x ∈ table_values st.variable_definitions ∨ x ∈ A1 := by
    intro x hx
    rw [hv1] at hx
    unfold table_values at hx
    rw [List.map_append, List.mem_append] at hx
    cases hx with
    | inl h => exact hliftN x (hvn1 x h)
    | inr h => exact Or.inr (Or.inl h)
  refine ⟨hd2, le_trans hc1 hc2, ?_, ?_, ?_, ?_, ?_, ?_, ?_, ?_⟩
  · rw [hn2, hn1, List.append_assoc]
  · rw [he2, he1, List.append_assoc]
  · rw [hv2, hv1, List.append_assoc]
  · rw [hf2, hf1, List.append_assoc]
  · intro nd hnd
    rw [List.mem_append] at hnd
    cases hnd with
    | inl h =>
      obtain ⟨k, hk1, hk2, hk3⟩ := hfresh1 nd h
      exact ⟨k, hk1, le_trans hk2 hc2, hk3⟩
    | inr h =>
      obtain ⟨k, hk1, hk2, hk3⟩ := hfresh2 nd h
      exact ⟨k, lt_of_le_of_lt hc1 hk1, hk2, hk3⟩
  · intro v hv
    unfold table_values at hv
    rw [List.map_append, List.mem_append] at hv
    simp only [List.map_append, List.mem_append]
    cases hv with
    | inl h =>
      cases hvn2 v h with
      | inl h2 => exact Or.inl (Or.inr h2)
      | inr h2 =>
        cases hA v h2 with
        | inl h3 => exact Or.inl (Or.inl h3)
        | inr h3 => exact Or.inr h3
    | inr h =>
      cases hvn1 v h with
      | inl h2 => exact Or.inl (Or.inl h2)
      | inr h2 => exact Or.inr h2
  · intro v hv
    unfold table_values at hv
    rw [List.map_append, List.mem_append] at hv
    simp only [List.map_append, List.mem_append]
    cases hv with
    | inl h =>
      cases hfn2 v h with
      | inl h2 => exact Or.inl (Or.inr h2)
      | inr h2 =>
        cases hA v h2 with
        | inl h3 => exact Or.inl (Or.inl h3)
        | inr h3 => exact Or.inr h3
    | inr h =>
      cases hfn1 v h with
      | inl h2 => exact Or.inl (Or.inl h2)
      | inr h2 => exact Or.inr h2
  · intro e he
    rw [List.mem_append] at he
    cases he with
    | inl h =>
      obtain ⟨hsrc, htgt⟩ := hedge1 e h
      constructor
      · cases hsrc with
        | inl hs => exact Or.inl (by
            simp only [List.map_append, List.mem_append]; exact Or.inl hs)
        | inr hs => exact Or.inr hs
      · cases htgt with
        | inl ht =>
          refine Or.inl ?_
          unfold node_ids at ht ⊢
          rw [hn2, List.map_append, List.mem_append]
          exact Or.inl ht
        | inr ht => exact Or.inr ht
    | inr h =>
      obtain ⟨hsrc, htgt⟩ := hedge2 e h
      constructor
      · cases hsrc with
        | inl hs => exact Or.inl (by
            simp only [List.map_append, List.mem_append]; exact Or.inr hs)
        | inr hs =>
          cases hs with
          | inl hs2 => exact hsrc_lift e.source_node_id hs2
          | inr hs2 => exact hliftN e.source_node_id (hA e.source_node_id hs2)
      · exact htgt

/-- A successful association-list lookup returns one of the stored
values. -/
theorem lookup_mem_values {l : List (String × String)} {k v : String}
    (h : List.lookup k l = some v) : v ∈ table_values l := by
  induction l with
  | nil => simp [List.lookup] at h
  | cons p tl ih =>
    cases p with
    | mk k' v' =>
      rw [List.lookup] at h
      cases hkk : (k == k') with
      | true =>
        rw [hkk] at h
        simp at h
        subst h
        simp [table_values]
      | false =>
        rw [hkk] at h
        simp at h
        have := ih h
        simp [table_values] at this ⊢
        exact Or.inr this

/-- `BInv` is carried along any `wparts` step whose allowance consists of
existing node ids. -/
theorem BInv_step {bn A : List String} {st st' : BuilderState} {g g' : DFG}
    {N : List DFGNode} {E : List DFGEdge} {V F : List (String × String)}
    (hA : ∀ x ∈ A, x ∈ node_ids g)
    (hinv : BInv st g) (hw : wparts bn A st g st' g' N E V F) :
    BInv st' g' := by
  obtain ⟨hd, hc, hn, he, hv, hf, hfresh, hvn, hfn, hedge⟩ := hw
  have hsub : ∀ i, i ∈ node_ids g → i ∈ node_ids g' := by
    intro i hi
    unfold node_ids at hi ⊢
    rw [hn, List.map_append, List.mem_append]
    exact Or.inl hi
  have hsubN : ∀ i, i ∈ N.map DFGNode.node_id → i ∈ node_ids g' := by
    intro i hi
    unfold node_ids
    rw [hn, List.map_append, List.mem_append]
    exact Or.inr hi
  refine ⟨hd, ?_, ?_, ?_⟩
  · intro v hv2
    rw [hv] at hv2
    unfold table_values at hv2
    rw [List.map_append, List.mem_append] at hv2
    cases hv2 with
    | inl h =>
      cases hvn v h with
      | inl h2 => exact hsubN v h2
      | inr h2 => exact hsub v (hA v h2)
    | inr h => exact hsub v (hinv.var_closed v h)
  · intro v hv2
    rw [hf] at hv2
    unfold table_values at hv2
    rw [List.map_append, List.mem_append] at hv2
    cases hv2 with
    | inl h =>
      cases hfn v h with
      | inl h2 => exact hsubN v h2
      | inr h2 => exact hsub v (hA v h2)
    | inr h => exact hsub v (hinv.fun_closed v h)
  · intro i hi
    unfold node_ids at hi
    rw [hn, List.map_append, List.mem_append] at hi
    cases hi with
    | inl h =>
      obtain ⟨k, hk1, hk2⟩ := hinv.ids_bounded i h
      exact ⟨k, le_trans hk1 hc, hk2⟩
    | inr h =>
      rw [List.mem_map] at h
      obtain ⟨nd, hnd, hid⟩ := h
      obtain ⟨k, hk1, hk2, hk3⟩ := hfresh nd hnd
      exact ⟨k, hk2, hid ▸ hk3⟩

/-- The node record `_create_dfg_node` inserts. -/
def created_node (st : BuilderState) (n : ASTNode) : DFGNode :=
  { node_id := mk_node_id (st.node_counter + 1)
    ast_text := ast_text n
    node_type := get_dfg_node_type n
    name := get_node_name n
    data_type := get_node_data_type n
    scope := st.current_scope
    properties := [] }

/-- The edge record `_add_edge` inserts. -/
def added_edge (st : BuilderState) (src tgt : String) (et : EdgeType)
    (ps : List (String × String)) : DFGEdge :=
  { edge_id := mk_edge_id (st.edge_counter + 1)
    source_node_id := src
    target_node_id := tgt
    edge_type := et
    properties := ps }

theorem create_dfg_node_dfg {st : BuilderState} {g : DFG} (n : ASTNode)
    (hd : st.current_dfg = some g) :
    (create_dfg_node st n).1.current_dfg =
      some { g with nodes := g.nodes ++ [created_node st n] } := by
  unfold create_dfg_node generate_node_id dfg_add_node
  simp only [hd]
  rfl

theorem add_edge_dfg {st : BuilderState} {g : DFG} (src tgt : String)
    (et : EdgeType) (ps : List (String × String))
    (hd : st.current_dfg = some g) :
    (add_edge st src tgt et ps).current_dfg =
      some { g with edges := g.edges ++ [added_edge st src tgt et ps] } := by
  unfold add_edge generate_edge_id
  simp only [hd]
  rfl

@[simp] theorem enter_scope_dfg (st : BuilderState) (s : String) :
    (enter_scope st s).current_dfg = st.current_dfg := rfl

@[simp] theorem enter_scope_vardefs (st : BuilderState) (s : String) :
    (enter_scope st s).variable_definitions = st.variable_definitions := rfl

@[simp] theorem enter_scope_fundefs (st : BuilderState) (s : String) :
    (enter_scope st s).function_definitions = st.function_definitions := rfl

@[simp] theorem enter_scope_counter (st : BuilderState) (s : String) :
    (enter_scope st s).node_counter = st.node_counter := rfl

@[simp] theorem exit_scope_dfg (st : BuilderState) :
    (exit_scope st).current_dfg = st.current_dfg := by
  unfold exit_scope; split <;> rfl

@[simp] theorem exit_scope_vardefs (st : BuilderState) :
    (exit_scope st).variable_definitions = st.variable_definitions := by
  unfold exit_scope; split <;> rfl

@[simp] theorem exit_scope_fundefs (st : BuilderState) :
    (exit_scope st).function_definitions = st.function_definitions := by
  unfold exit_scope; split <;> rfl

@[simp] theorem exit_scope_counter (st : BuilderState) :
    (exit_scope st).node_counter = st.node_counter := by
  unfold exit_scope; split <;> rfl

/-- `add_edge` as a `wparts` step, with a general source justification. -/
theorem add_edge_wparts_src (bn A : List String) {st : BuilderState}
    {g : DFG}
    (src tgt : String) (et : EdgeType) (ps : List (String × String))
    (hd : st.current_dfg = some g)
    (hsrc : src ∈ table_values st.variable_definitions ∨ src ∈ A)
    (htgt : tgt ∈ node_ids g ∨ (∃ b ∈ bn, tgt = "contract_" ++ b) ∨
      tgt = "init_" ++ src) :
    wparts bn A st g (add_edge st src tgt et ps)
      { g with edges := g.edges ++ [added_edge st src tgt et ps] }
      [] [added_edge st src tgt et ps] [] [] := by
  refine ⟨add_edge_dfg src tgt et ps hd, by simp, by simp, by simp,
    by simp, by simp, ?_, ?_, ?_, ?_⟩
  · intro nd hnd; simp at hnd
  · intro x hx; simp [table_values] at hx
  · intro x hx; simp [table_values] at hx
  · intro e he
    simp only [List.mem_singleton] at he
    subst he
    constructor
    · cases hsrc with
      | inl h => exact Or.inr (Or.inl (by simpa [added_edge] using h))
      | inr h => exact Or.inr (Or.inr (by simpa [added_edge] using h))
    · cases htgt with
      | inl h => exact Or.inl (by simpa [added_edge, node_ids] using h)
      | inr h =>
        cases h with
        | inl h2 => exact Or.inr (Or.inl (by simpa [added_edge] using h2))
        | inr h2 => exact Or.inr (Or.inr (by simpa [added_edge] using h2))

/-- Node ids are untouched by an edges-only DFG update. -/
theorem node_ids_edges_ext (g : DFG) (E : List DFGEdge) :
    node_ids { g with edges := g.edges ++ E } = node_ids g := rfl

/-- `_create_parameter_dfg` as a `wparts` step: it appends at most one
`parameter` node and no edges or bindings; whenever it returns a node,
that node was appended. -/
theorem create_parameter_dfg_wparts (bn A : List String)
    {st : BuilderState}
    {g : DFG} (p : ParamInfo) (ir : Bool) (hd : st.current_dfg = some g) :
    ∃ N, wparts bn A st g (create_parameter_dfg st p ir).1
      { g with nodes := g.nodes ++ N } N [] [] [] ∧
    (∀ nd, (create_parameter_dfg st p ir).2 = some nd →
      nd ∈ N ∧ nd.node_id ∈ node_ids { g with nodes := g.nodes ++ N }) := by
  unfold create_parameter_dfg
  have hns : st.current_dfg.isNone = false := by rw [hd]; rfl
  by_cases hp : param_truthy p
  · rw [if_neg (by simp [hp, hns])]
    dsimp only
    set nd : DFGNode :=
      { node_id := mk_node_id (st.node_counter + 1 + 1)
        ast_text := none
        node_type := "parameter"
        name := some (p.name.getD ("param_" ++ nat_repr st.node_counter))
        data_type := some (p.type.getD "unknown")
        scope := st.current_scope
        properties := [("is_return", if ir then "True" else "False")] }
      with hnd
    refine ⟨[nd], ⟨?_, ?_, ?_, ?_, ?_, ?_, ?_, ?_, ?_, ?_⟩, ?_⟩
    · show (dfg_add_node _ _).current_dfg = _
      unfold dfg_add_node generate_node_id
      simp only [hd]
    · show st.node_counter ≤ (dfg_add_node _ _).node_counter
      unfold dfg_add_node generate_node_id
      simp only [hd]
      show st.node_counter ≤ st.node_counter + 1 + 1
      omega
    · simp
    · simp
    · show (dfg_add_node _ _).variable_definitions = _
      unfold dfg_add_node generate_node_id
      simp only [hd]
      show st.variable_definitions = [] ++ st.variable_definitions
      simp
    · show (dfg_add_node _ _).function_definitions = _
      unfold dfg_add_node generate_node_id
      simp only [hd]
      show st.function_definitions = [] ++ st.function_definitions
      simp
    · intro x hx
      simp only [List.mem_singleton] at hx
      subst hx
      refine ⟨st.node_counter + 2, by omega, ?_, by rw [hnd]⟩
      show st.node_counter + 2 ≤ (dfg_add_node _ _).node_counter
      unfold dfg_add_node generate_node_id
      simp only [hd]
      show st.node_counter + 2 ≤ st.node_counter + 1 + 1
      omega
    · intro x hx; simp [table_values] at hx
    · intro x hx; simp [table_values] at hx
    · intro e he; simp at he
    · intro x hx
      simp only [Option.some.injEq] at hx
      have hxnd : x = nd := by rw [← hx]; rfl
      subst hxnd
      exact ⟨by simp, by simp [node_ids]⟩
  · rw [if_pos (by simp [hp])]
    refine ⟨[], ?_, ?_⟩
    · have : ({ g with nodes := g.nodes ++ [] } : DFG) = g := by simp
      rw [this]
      exact wparts_refl bn A st g hd
    · intro x hx; simp at hx

/-- The parameter loop as a `wparts` step with the function node id as the
allowed edge source. -/
theorem build_params_wparts {bn : List String} :
    ∀ (ps : List ParamInfo) (st : BuilderState) (g : DFG) (fid : String)
      (ir : Bool), st.current_dfg = some g →
    ∃ g' N E,
      wparts bn [fid] st g (build_params st fid ps ir) g' N E [] [] := by
  intro ps
  induction ps with
  | nil =>
    intro st g fid ir hd
    exact ⟨g, [], [], wparts_refl bn [fid] st g hd⟩
  | cons p rest ih =>
    intro st g fid ir hd
    obtain ⟨N1, hw1, hret⟩ :=
      create_parameter_dfg_wparts bn [fid] p ir hd
    have hstep : build_params st fid (p :: rest) ir =
        build_params
          (match (create_parameter_dfg st p ir).2 with
           | some node => add_edge (create_parameter_dfg st p ir).1 fid
               node.node_id EdgeType.definition []
           | none => (create_parameter_dfg st p ir).1) fid rest ir := by
      unfold build_params
      rfl
    rw [hstep]
    cases hr : (create_parameter_dfg st p ir).2 with
    | none =>
      obtain ⟨g', N2, E2, hw2⟩ := ih (create_parameter_dfg st p ir).1
        { g with nodes := g.nodes ++ N1 } fid ir hw1.1
      exact ⟨g', _, _, wparts_trans hw1 hw2 (fun x hx => Or.inr hx)⟩
    | some node =>
      have hnode := hret node hr
      have hw2 := add_edge_wparts_src bn [fid] fid
        node.node_id EdgeType.definition [] hw1.1
        (Or.inr (by simp))
        (Or.inl hnode.2)
      have hw12 := wparts_trans hw1 hw2 (fun x hx => Or.inr hx)
      obtain ⟨g', N2, E2, hw3⟩ := ih
        (add_edge (create_parameter_dfg st p ir).1 fid node.node_id
          EdgeType.definition [])
        _ fid ir hw2.1
      exact ⟨g', _, _, wparts_trans hw12 hw3 (fun x hx => Or.inr hx)⟩

/-- The base-contract loop as a `wparts` step: it appends exactly one
`definition` edge from the contract node to `contract_<b>` per base name,
in order. -/
theorem build_base_contract_edges_wparts {bn : List String} :
    ∀ (bs : List String) (st : BuilderState) (g : DFG) (cid : String),
      st.current_dfg = some g → (∀ b ∈ bs, b ∈ bn) →
    ∃ E, wparts bn [cid] st g (build_base_contract_edges st cid bs)
        { g with edges := g.edges ++ E } [] E [] [] ∧
      E.map (fun e => (e.source_node_id, e.target_node_id, e.edge_type)) =
        bs.map (fun b => (cid, "contract_" ++ b, EdgeType.definition)) := by
  intro bs
  induction bs with
  | nil =>
    intro st g cid hd hbs
    refine ⟨[], ?_, by simp⟩
    have hg : ({ g with edges := g.edges ++ [] } : DFG) = g := by simp
    rw [hg]
    have hnil : build_base_contract_edges st cid [] = st := rfl
    rw [hnil]
    exact wparts_refl bn [cid] st g hd
  | cons b rest ih =>
    intro st g cid hd hbs
    have hstep : build_base_contract_edges st cid (b :: rest) =
        build_base_contract_edges
          (add_edge st cid ("contract_" ++ b) EdgeType.definition
            [("inheritance_type", "base_contract")]) cid rest := by
      unfold build_base_contract_edges
      rfl
    rw [hstep]
    have hw1 := add_edge_wparts_src bn [cid] cid
      ("contract_" ++ b) EdgeType.definition
      [("inheritance_type", "base_contract")] hd
      (Or.inr (by simp))
      (Or.inr (Or.inl ⟨b, hbs b (by simp), rfl⟩))
    obtain ⟨E2, hw2, hmap⟩ := ih
      (add_edge st cid ("contract_" ++ b) EdgeType.definition
        [("inheritance_type", "base_contract")]) _ cid hw1.1
      (fun x hx => hbs x (by simp [hx]))
    set e1 := added_edge st cid ("contract_" ++ b) EdgeType.definition
      [("inheritance_type", "base_contract")] with he1
    have hcomp := wparts_trans hw1 hw2 (fun x hx => Or.inr hx)
    refine ⟨e1 :: E2, ?_, ?_⟩
    · have hgeq :
          ({ { g with edges := g.edges ++ [e1] } with
             edges := ({ g with edges := g.edges ++ [e1] } : DFG).edges ++ E2 }
            : DFG) =
          { g with edges := g.edges ++ e1 :: E2 } := by
        simp
      rw [← hgeq]
      simpa using hcomp
    · simp only [List.map_cons, hmap, he1, added_edge]

/-- `_handle_variable_reference` as a `wparts` step: it only ever appends
`data_dependency` edges whose sources are recorded variable definitions
and whose target is the (existing) expression node. -/
theorem handle_variable_reference_wparts {bn A : List String}
    {st : BuilderState} {g : DFG} (en : Option String) (nid : String)
    (hd : st.current_dfg = some g) (hnid : nid ∈ node_ids g) :
    ∃ g' E, wparts bn A st g (handle_variable_reference st en nid)
      g' [] E [] [] := by
  unfold handle_variable_reference
  cases en with
  | none => exact ⟨g, [], wparts_refl bn A st g hd⟩
  | some name =>
    dsimp only
    by_cases he : (name == "") = true
    · rw [if_pos he]
      exact ⟨g, [], wparts_refl bn A st g hd⟩
    · rw [if_neg he]
      cases h1 : List.lookup ((st.current_scope.getD "None") ++ "." ++ name)
          st.variable_definitions with
      | none =>
        simp only [h1]
        cases h2 : List.lookup ("global." ++ name)
            st.variable_definitions with
        | none =>
          simp only [h2]
          exact ⟨g, [], wparts_refl bn A st g hd⟩
        | some d2 =>
          simp only [h2]
          refine ⟨_, _, add_edge_wparts_src bn A d2 nid EdgeType.data_dependency
            [("relation", "state-var-use")] hd
            (Or.inl (lookup_mem_values h2)) (Or.inl hnid)⟩
      | some d =>
        simp only [h1]
        have hw1 := add_edge_wparts_src bn A d
          nid EdgeType.data_dependency [("relation", "def-use")] hd
          (Or.inl (lookup_mem_values h1)) (Or.inl hnid)
        simp only [add_edge_vardefs]
        cases h2 : List.lookup ("global." ++ name)
            st.variable_definitions with
        | none =>
          simp only [h2]
          exact ⟨_, _, hw1⟩
        | some d2 =>
          simp only [h2]
          have hw2 := add_edge_wparts_src bn A
            d2 nid EdgeType.data_dependency [("relation", "state-var-use")]
            hw1.1
            (Or.inl (by
              rw [add_edge_vardefs]
              exact lookup_mem_values h2))
            (Or.inl (by
              rw [node_ids_edges_ext]
              exact hnid))
          exact ⟨_, _, wparts_trans hw1 hw2 (fun x hx => Or.inr hx)⟩

/-- Enlarging the allowance preserves a `wparts` step. -/
theorem wparts_mono_A {bn A : List String} (A' : List String)
    {st st' : BuilderState}
    {g g' : DFG} {N : List DFGNode} {E : List DFGEdge}
    {V F : List (String × String)} (hAA : ∀ x ∈ A, x ∈ A')
    (hw : wparts bn A st g st' g' N E V F) :
    wparts bn A' st g st' g' N E V F := by
  obtain ⟨hd, hc, hn, he, hv, hf, hfresh, hvn, hfn, hedge⟩ := hw
  refine ⟨hd, hc, hn, he, hv, hf, hfresh, ?_, ?_, ?_⟩
  · intro v hv2
    cases hvn v hv2 with
    | inl h => exact Or.inl h
    | inr h => exact Or.inr (hAA v h)
  · intro v hv2
    cases hfn v hv2 with
    | inl h => exact Or.inl h
    | inr h => exact Or.inr (hAA v h)
  · intro e he2
    obtain ⟨hsrc, htgt⟩ := hedge e he2
    refine ⟨?_, htgt⟩
    cases hsrc with
    | inl h => exact Or.inl h
    | inr h =>
      cases h with
      | inl h2 => exact Or.inr (Or.inl h2)
      | inr h2 => exact Or.inr (Or.inr (hAA _ h2))

/-- A `wparts` step only grows the node-id set. -/
theorem wparts_node_ids_mono {bn A : List String} {st st' : BuilderState}
    {g g' : DFG} {N : List DFGNode} {E : List DFGEdge}
    {V F : List (String × String)}
    (hw : wparts bn A st g st' g' N E V F) :
    ∀ x ∈ node_ids g, x ∈ node_ids g' := by
  intro x hx
  unfold node_ids at hx ⊢
  rw [hw.2.2.1, List.map_append, List.mem_append]
  exact Or.inl hx

theorem attach_child_edge_some {r : BuilderState × Option String}
    {cid : String} (pid : String) (et : EdgeType) (h : r.2 = some cid) :
    attach_child_edge r pid et = add_edge r.1 pid cid et [] := by
  unfold attach_child_edge
  rw [h]

theorem attach_operand_edge_some {r : BuilderState × Option String}
    {oid : String} (eid : String) (h : r.2 = some oid) :
    attach_operand_edge r eid = add_edge r.1 oid eid
      EdgeType.data_dependency [] := by
  unfold attach_operand_edge
  rw [h]

theorem created_node_mem (st : BuilderState) (n : ASTNode) (g : DFG) :
    (created_node st n).node_id ∈
      node_ids { g with nodes := g.nodes ++ [created_node st n] } := by
  simp [node_ids]

/-- `_create_dfg_node` as a `wparts` step: it appends exactly the created
node and touches nothing else. -/
theorem create_dfg_node_wparts (bn A : List String) {st : BuilderState}
    {g : DFG} (n : ASTNode) (hd : st.current_dfg = some g) :
    wparts bn A st g (create_dfg_node st n).1
      { g with nodes := g.nodes ++ [created_node st n] }
      [created_node st n] [] [] [] := by
  refine ⟨create_dfg_node_dfg n hd, ?_, by simp, by simp, ?_, ?_, ?_, ?_,
    ?_, ?_⟩
  · rw [create_dfg_node_counter]; omega
  · rw [create_dfg_node_vardefs]; simp
  · rw [create_dfg_node_fundefs]; simp
  · intro nd hnd
    simp only [List.mem_singleton] at hnd
    subst hnd
    exact ⟨st.node_counter + 1, by omega,
      le_of_eq (create_dfg_node_counter st n).symm, rfl⟩
  · intro x hx; simp [table_values] at hx
  · intro x hx; simp [table_values] at hx
  · intro e he; simp at he

/-- A state change that touches neither the DFG, the tables nor the node
counter is an empty `wparts` step (used for `_enter_scope`/`_exit_scope`). -/
theorem wparts_of_preserve (bn A : List String) {st st' : BuilderState}
    {g : DFG} (hd : st.current_dfg = some g)
    (h1 : st'.current_dfg = st.current_dfg)
    (h2 : st'.variable_definitions = st.variable_definitions)
    (h3 : st'.function_definitions = st.function_definitions)
    (h4 : st'.node_counter = st.node_counter) :
    wparts bn A st g st' g [] [] [] [] := by
  refine ⟨by rw [h1, hd], by rw [h4], by simp, by simp, by simp [h2],
    by simp [h3], ?_, ?_, ?_, ?_⟩ <;> intro x hx <;>
    simp [table_values] at hx

/-- A filter by an everywhere-false predicate is empty. -/
theorem filter_eq_nil_of_false {α : Type} (p : α → Bool) :
    ∀ l : List α, (∀ a ∈ l, p a = false) → l.filter p = []
  | [], _ => rfl
  | a :: tl, h => by
    rw [List.filter_cons]
    rw [h a (List.mem_cons_self a tl)]
    simp only [Bool.false_eq_true, if_false]
    exact filter_eq_nil_of_false p tl (fun x hx => h x (by simp [hx]))

/-! The master walk theorem: every recursive walk over an AST node is a
`wparts` step whose first appended node is the node created for the root of
that subtree, and which returns that node's id. The children loop
additionally characterises exactly the edges it emits from the parent. -/

mutual

theorem build_node_dfg_wparts : ∀ (n : ASTNode) (bn : List String)
    (st : BuilderState) (g : DFG), BInv st g →
    (∀ b ∈ ast_base_names n, b ∈ bn) →
    ∃ g' N E V F,
      wparts bn [] st g (build_node_dfg st n).1 g' N E V F ∧
      (build_node_dfg st n).2 = some (mk_node_id (st.node_counter + 1)) ∧
      ∃ rest, N = created_node st n :: rest
  | ASTNode.variableNode name is_state data_type initial_value text, bn, st,
      g, hinv, hbn => by
    rw [build_node_dfg_variable_eq, hinv.dfg_eq]
    dsimp only
    rw [create_dfg_node_snd]
    dsimp only
    have hw1 := create_dfg_node_wparts bn []
      (ASTNode.variableNode name is_state data_type initial_value text)
      hinv.dfg_eq
    cases name with
    | none =>
      dsimp only
      cases initial_value with
      | none =>
        exact ⟨_, _, _, _, _, hw1, rfl, [], by simp⟩
      | some v =>
        dsimp only
        by_cases hv : (v == "") = true
        · rw [if_pos hv]
          exact ⟨_, _, _, _, _, hw1, rfl, [], by simp⟩
        · rw [if_neg hv]
          have hw3 := add_edge_wparts_src bn [mk_node_id (st.node_counter + 1)]
            (mk_node_id (st.node_counter + 1))
            ("init_" ++ mk_node_id (st.node_counter + 1))
            EdgeType.data_dependency [("initialization", "True")] hw1.1
            (Or.inr (by simp))
            (Or.inr (Or.inr rfl))
          refine ⟨_, _, _, _, _,
            wparts_trans hw1 hw3 (fun x hx => Or.inl (by
              simp only [List.mem_singleton] at hx
              subst hx
              simp [created_node])), rfl, ⟨[], by simp⟩⟩
    | some nm =>
      dsimp only
      by_cases hnm : (nm == "") = true
      · rw [if_pos hnm]
        cases initial_value with
        | none =>
          exact ⟨_, _, _, _, _, hw1, rfl, [], by simp⟩
        | some v =>
          dsimp only
          by_cases hv : (v == "") = true
          · rw [if_pos hv]
            exact ⟨_, _, _, _, _, hw1, rfl, [], by simp⟩
          · rw [if_neg hv]
            have hw3 := add_edge_wparts_src bn
              [mk_node_id (st.node_counter + 1)]
              (mk_node_id (st.node_counter + 1))
              ("init_" ++ mk_node_id (st.node_counter + 1))
              EdgeType.data_dependency [("initialization", "True")] hw1.1
              (Or.inr (by simp))
              (Or.inr (Or.inr rfl))
            refine ⟨_, _, _, _, _,
              wparts_trans hw1 hw3 (fun x hx => Or.inl (by
                simp only [List.mem_singleton] at hx
                subst hx
                simp [created_node])), rfl, ⟨[], by simp⟩⟩
      · rw [if_neg hnm]
        have hw2 : wparts bn [mk_node_id (st.node_counter + 1)]
            (create_dfg_node st (ASTNode.variableNode (some nm) is_state
              data_type initial_value text)).1
            { g with nodes := g.nodes ++ [created_node st
              (ASTNode.variableNode (some nm) is_state data_type
                initial_value text)] }
            { (create_dfg_node st (ASTNode.variableNode (some nm) is_state
                data_type initial_value text)).1 with
              variable_definitions :=
                (((create_dfg_node st (ASTNode.variableNode (some nm)
                    is_state data_type initial_value text)).1.current_scope.getD
                      "None") ++ "." ++ nm,
                  mk_node_id (st.node_counter + 1))
                  :: (create_dfg_node st (ASTNode.variableNode (some nm)
                    is_state data_type initial_value
                      text)).1.variable_definitions }
            { g with nodes := g.nodes ++ [created_node st
              (ASTNode.variableNode (some nm) is_state data_type
                initial_value text)] }
            [] []
            [(((create_dfg_node st (ASTNode.variableNode (some nm) is_state
                data_type initial_value text)).1.current_scope.getD "None")
                ++ "." ++ nm, mk_node_id (st.node_counter + 1))]
            [] := by
          refine ⟨hw1.1, le_rfl, by simp, by simp, rfl, by simp,
            ?_, ?_, ?_, ?_⟩
          · intro x hx; simp at hx
          · intro v hv2
            simp [table_values] at hv2
            subst hv2
            exact Or.inr (by simp)
          · intro v hv2; simp [table_values] at hv2
          · intro e he2; simp at he2
        have hw12 := wparts_trans hw1 hw2 (fun x hx => Or.inl (by
          simp only [List.mem_singleton] at hx
          subst hx
          simp [created_node]))
        cases initial_value with
        | none =>
          exact ⟨_, _, _, _, _, hw12, rfl, [], by simp⟩
        | some v =>
          dsimp only
          by_cases hv : (v == "") = true
          · rw [if_pos hv]
            exact ⟨_, _, _, _, _, hw12, rfl, [], by simp⟩
          · rw [if_neg hv]
            have hw3 := add_edge_wparts_src bn
              [mk_node_id (st.node_counter + 1)]
              (mk_node_id (st.node_counter + 1))
              ("init_" ++ mk_node_id (st.node_counter + 1))
              EdgeType.data_dependency [("initialization", "True")] hw12.1
              (Or.inr (by simp))
              (Or.inr (Or.inr rfl))
            refine ⟨_, _, _, _, _,
              wparts_trans hw12 hw3 (fun x hx => Or.inl (by
                simp only [List.mem_singleton] at hx
                subst hx
                simp [created_node])), rfl, ⟨[], by simp⟩⟩
  | ASTNode.genericNode tag name children text, bn, st, g, hinv, hbn => by
    have hbn_ch : ∀ b ∈ ast_base_names_list children, b ∈ bn :=
      fun b hb => hbn b (by unfold ast_base_names; exact hb)
    rw [build_node_dfg_generic_eq, hinv.dfg_eq]
    dsimp only
    rw [create_dfg_node_snd]
    dsimp only
    have hw1 := create_dfg_node_wparts bn []
      (ASTNode.genericNode tag name children text) hinv.dfg_eq
    have hinvA := BInv_step (fun x hx => by simp at hx) hinv hw1
    obtain ⟨gB, N2, E2, V2, F2, hw2, hfil⟩ :=
      build_children_edges_wparts_m children bn _ _
        (mk_node_id (st.node_counter + 1)) EdgeType.control_dependency hinvA
        hbn_ch (created_node_mem st _ g)
    refine ⟨_, _, _, _, _,
      wparts_trans hw1 hw2 (fun x hx => Or.inl (by
        simp only [List.mem_singleton] at hx
        subst hx
        simp [created_node])), rfl, ⟨N2, by simp⟩⟩
  | ASTNode.contractNode name bases children text, bn, st, g, hinv, hbn => by
    have hbn_ch : ∀ b ∈ ast_base_names_list children, b ∈ bn :=
      fun b hb => hbn b (by
        unfold ast_base_names
        rw [List.mem_append]
        exact Or.inr hb)
    have hbn_bs : ∀ b ∈ bases, b ∈ bn :=
      fun b hb => hbn b (by
        unfold ast_base_names
        rw [List.mem_append]
        exact Or.inl hb)
    rw [build_node_dfg_contract_eq, hinv.dfg_eq]
    dsimp only
    rw [create_dfg_node_snd]
    dsimp only
    have hw1 := create_dfg_node_wparts bn []
      (ASTNode.contractNode name bases children text) hinv.dfg_eq
    have hw2 := wparts_of_preserve bn [] hw1.1
      (enter_scope_dfg (create_dfg_node st
        (ASTNode.contractNode name bases children text)).1
        (py_or_str name "contract"))
      (enter_scope_vardefs (create_dfg_node st
        (ASTNode.contractNode name bases children text)).1
        (py_or_str name "contract"))
      (enter_scope_fundefs (create_dfg_node st
        (ASTNode.contractNode name bases children text)).1
        (py_or_str name "contract"))
      (enter_scope_counter (create_dfg_node st
        (ASTNode.contractNode name bases children text)).1
        (py_or_str name "contract"))
    have hw12 := wparts_trans hw1 hw2 (fun x hx => by simp at hx)
    have hinv2 := BInv_step (fun x hx => by simp at hx) hinv hw12
    obtain ⟨gC, NC, EC, VC, FC, hwC, hfilC⟩ :=
      build_children_edges_wparts_m children bn _ _
        (mk_node_id (st.node_counter + 1)) EdgeType.definition hinv2
        hbn_ch (created_node_mem st _ g)
    have hw123 := wparts_trans hw12 hwC (fun x hx => Or.inl (by
      simp only [List.mem_singleton] at hx
      subst hx
      simp [created_node]))
    have hinv3 := BInv_step (fun x hx => by simp at hx) hinv hw123
    obtain ⟨EB, hwB, hmapB⟩ :=
      build_base_contract_edges_wparts bases _ _
        (mk_node_id (st.node_counter + 1)) hinv3.dfg_eq hbn_bs
    have hw1234 := wparts_trans hw123 hwB (fun x hx => Or.inl (by
      simp only [List.mem_singleton] at hx
      subst hx
      simp [created_node]))
    have hwE := wparts_of_preserve bn [] hw1234.1
      (exit_scope_dfg _) (exit_scope_vardefs _) (exit_scope_fundefs _)
      (exit_scope_counter _)
    refine ⟨_, _, _, _, _,
      wparts_trans hw1234 hwE (fun x hx => by simp at hx), rfl,
      ⟨NC, by simp⟩⟩
  | ASTNode.functionNode name is_ctor params ret_params children text, bn,
      st, g, hinv, hbn => by
    have hbn_ch : ∀ b ∈ ast_base_names_list children, b ∈ bn :=
      fun b hb => hbn b (by unfold ast_base_names; exact hb)
    rw [build_node_dfg_function_eq, hinv.dfg_eq]
    dsimp only
    rw [create_dfg_node_snd]
    dsimp only
    have hw1 := create_dfg_node_wparts bn []
      (ASTNode.functionNode name is_ctor params ret_params children text)
      hinv.dfg_eq
    have hw2 := wparts_of_preserve bn [] hw1.1
      (enter_scope_dfg (create_dfg_node st (ASTNode.functionNode name
        is_ctor params ret_params children text)).1
        (py_or_str name "anonymous" ++ "_function"))
      (enter_scope_vardefs (create_dfg_node st (ASTNode.functionNode name
        is_ctor params ret_params children text)).1
        (py_or_str name "anonymous" ++ "_function"))
      (enter_scope_fundefs (create_dfg_node st (ASTNode.functionNode name
        is_ctor params ret_params children text)).1
        (py_or_str name "anonymous" ++ "_function"))
      (enter_scope_counter (create_dfg_node st (ASTNode.functionNode name
        is_ctor params ret_params children text)).1
        (py_or_str name "anonymous" ++ "_function"))
    have hw12 := wparts_trans hw1 hw2 (fun x hx => by simp at hx)
    have hw123 :
        ∃ F3, wparts bn [] st g
          (match name with
           | some nm =>
               if nm == "" then
                 enter_scope (create_dfg_node st (ASTNode.functionNode name
                   is_ctor params ret_params children text)).1
                   (py_or_str name "anonymous" ++ "_function")
               else
                 { enter_scope (create_dfg_node st (ASTNode.functionNode
                     name is_ctor params ret_params children text)).1
                     (py_or_str name "anonymous" ++ "_function") with
                   function_definitions :=
                     (nm, mk_node_id (st.node_counter + 1))
                       :: (enter_scope (create_dfg_node st
                         (ASTNode.functionNode name is_ctor params
                           ret_params children text)).1
                         (py_or_str name "anonymous" ++
                           "_function")).function_definitions }
           | none =>
               enter_scope (create_dfg_node st (ASTNode.functionNode name
                 is_ctor params ret_params children text)).1
                 (py_or_str name "anonymous" ++ "_function"))
          { g with nodes := g.nodes ++ [created_node st
            (ASTNode.functionNode name is_ctor params ret_params children
              text)] }
          ([created_node st (ASTNode.functionNode name is_ctor params
            ret_params children text)] ++ []) ([] ++ []) ([] ++ [])
          F3 := by
      cases name with
      | none => exact ⟨[] ++ [], hw12⟩
      | some nm =>
        dsimp only
        by_cases hnm : (nm == "") = true
        · rw [if_pos hnm]
          exact ⟨[] ++ [], hw12⟩
        · rw [if_neg hnm]
          have hwF : wparts bn [mk_node_id (st.node_counter + 1)]
              (enter_scope (create_dfg_node st (ASTNode.functionNode
                (some nm) is_ctor params ret_params children text)).1
                (py_or_str (some nm) "anonymous" ++ "_function"))
              { g with nodes := g.nodes ++ [created_node st
                (ASTNode.functionNode (some nm) is_ctor params ret_params
                  children text)] }
              { enter_scope (create_dfg_node st (ASTNode.functionNode
                  (some nm) is_ctor params ret_params children text)).1
                  (py_or_str (some nm) "anonymous" ++ "_function") with
                function_definitions :=
                  (nm, mk_node_id (st.node_counter + 1))
                    :: (enter_scope (create_dfg_node st
                      (ASTNode.functionNode (some nm) is_ctor params
                        ret_params children text)).1
                      (py_or_str (some nm) "anonymous" ++
                        "_function")).function_definitions }
              { g with nodes := g.nodes ++ [created_node st
                (ASTNode.functionNode (some nm) is_ctor params ret_params
                  children text)] }
              [] [] []
              [(nm, mk_node_id (st.node_counter + 1))] := by
            refine ⟨hw12.1, le_rfl, by simp, by simp, by simp, rfl,
              ?_, ?_, ?_, ?_⟩
            · intro x hx; simp at hx
            · intro v hv2; simp [table_values] at hv2
            · intro v hv2
              simp [table_values] at hv2
              subst hv2
              exact Or.inr (by simp)
            · intro e he2; simp at he2
          refine ⟨[(nm, mk_node_id (st.node_counter + 1))] ++ ([] ++ []),
            ?_⟩
          have := wparts_trans hw12 hwF (fun x hx => Or.inl (by
            simp only [List.mem_singleton] at hx
            subst hx
            simp [created_node]))
          simpa using this
    obtain ⟨F3, hw3⟩ := hw123
    have hinv3 := BInv_step (fun x hx => by simp at hx) hinv hw3
    obtain ⟨gP, NP, EP, hwP⟩ :=
      @build_params_wparts bn params _ _ (mk_node_id (st.node_counter + 1))
        false hinv3.dfg_eq
    have hw34 := wparts_trans hw3 hwP (fun x hx => Or.inl (by
      simp only [List.mem_singleton] at hx
      subst hx
      simp [created_node]))
    have hinv4 := BInv_step (fun x hx => by simp at hx) hinv hw34
    have hfid4 : mk_node_id (st.node_counter + 1) ∈ node_ids gP :=
      wparts_node_ids_mono hwP _ (created_node_mem st _ g)
    obtain ⟨gC, NC, EC, VC, FC, hwC, hfilC⟩ :=
      build_children_edges_wparts_m children bn _ _
        (mk_node_id (st.node_counter + 1)) EdgeType.control_dependency hinv4
        hbn_ch hfid4
    have hw345 := wparts_trans hw34 hwC (fun x hx => Or.inl (by
      simp only [List.mem_singleton] at hx
      subst hx
      simp [created_node]))
    have hinv5 := BInv_step (fun x hx => by simp at hx) hinv hw345
    obtain ⟨gR, NR, ER, hwR⟩ :=
      @build_params_wparts bn ret_params _ _
        (mk_node_id (st.node_counter + 1)) true hinv5.dfg_eq
    have hw3456 := wparts_trans hw345 hwR (fun x hx => Or.inl (by
      simp only [List.mem_singleton] at hx
      subst hx
      simp [created_node]))
    have hwE := wparts_of_preserve bn [] hw3456.1
      (exit_scope_dfg _) (exit_scope_vardefs _) (exit_scope_fundefs _)
      (exit_scope_counter _)
    refine ⟨_, _, _, _, _,
      wparts_trans hw3456 hwE (fun x hx => by simp at hx), rfl,
      ⟨NP ++ (NC ++ NR), by simp⟩⟩
  | ASTNode.expressionNode name op left right args text, bn, st, g, hinv,
      hbn => by
    have hbn_l : ∀ b ∈ ast_base_names_opt left, b ∈ bn :=
      fun b hb => hbn b (by
        unfold ast_base_names
        rw [List.mem_append, List.mem_append]
        exact Or.inl (Or.inl hb))
    have hbn_r : ∀ b ∈ ast_base_names_opt right, b ∈ bn :=
      fun b hb => hbn b (by
        unfold ast_base_names
        rw [List.mem_append, List.mem_append]
        exact Or.inl (Or.inr hb))
    have hbn_a : ∀ b ∈ ast_base_names_list args, b ∈ bn :=
      fun b hb => hbn b (by
        unfold ast_base_names
        rw [List.mem_append]
        exact Or.inr hb)
    rw [build_node_dfg_expression_eq, hinv.dfg_eq]
    dsimp only
    rw [create_dfg_node_snd]
    dsimp only
    have hw1 := create_dfg_node_wparts bn []
      (ASTNode.expressionNode name op left right args text) hinv.dfg_eq
    have hinvA := BInv_step (fun x hx => by simp at hx) hinv hw1
    have heid0 : mk_node_id (st.node_counter + 1) ∈
        node_ids { g with nodes := g.nodes ++ [created_node st
          (ASTNode.expressionNode name op left right args text)] } :=
      created_node_mem st _ g
    have tail : ∀ (stE : BuilderState) (gE : DFG) (NE : List DFGNode)
        (EE : List DFGEdge) (VE FE : List (String × String)),
        wparts bn [] st g stE gE NE EE VE FE →
        (∃ r, NE = created_node st (ASTNode.expressionNode name op left
          right args text) :: r) →
        ∃ g' N E V F,
          wparts bn [] st g
            (handle_variable_reference (build_args_edges stE
              (mk_node_id (st.node_counter + 1)) args) name
              (mk_node_id (st.node_counter + 1))) g' N E V F ∧
          (∃ rest, N = created_node st (ASTNode.expressionNode name op
            left right args text) :: rest) := by
      intro stE gE NE EE VE FE hwE hNE
      obtain ⟨rE, hNE⟩ := hNE
      have hinvE := BInv_step (fun x hx => by simp at hx) hinv hwE
      have heidE : mk_node_id (st.node_counter + 1) ∈ node_ids gE := by
        unfold node_ids
        rw [hwE.2.2.1, List.map_append, List.mem_append]
        exact Or.inr (by rw [hNE]; simp [created_node])
      obtain ⟨g4, N4, E4, V4, F4, hw4⟩ :=
        build_args_edges_wparts_m args bn _ _
          (mk_node_id (st.node_counter + 1)) hinvE hbn_a heidE
      have hw34 := wparts_trans hwE hw4 (fun x hx => Or.inl (by
        simp only [List.mem_singleton] at hx
        subst hx
        rw [hNE]
        simp [created_node]))
      have hinv4 := BInv_step (fun x hx => by simp at hx) hinv hw34
      have heid4 : mk_node_id (st.node_counter + 1) ∈ node_ids g4 :=
        wparts_node_ids_mono hw4 _ heidE
      obtain ⟨g5, E5, hw5⟩ :=
        @handle_variable_reference_wparts bn ([] : List String) _ _ name
          (mk_node_id (st.node_counter + 1)) hinv4.dfg_eq heid4
      refine ⟨_, _, _, _, _,
        wparts_trans hw34 hw5 (fun x hx => by simp at hx),
        ⟨rE ++ (N4 ++ []), by rw [hNE]; simp⟩⟩
    cases left with
    | none =>
      cases right with
      | none =>
        dsimp only
        obtain ⟨g', N, E, V, F, hw, hsh⟩ := tail _ _ _ _ _ _ hw1 ⟨[], rfl⟩
        exact ⟨g', N, E, V, F, hw, rfl, hsh⟩
      | some rt =>
        dsimp only
        obtain ⟨gr, Nr, Er, Vr, Fr, hwr, hretr, restr, hNr⟩ :=
          build_node_dfg_wparts rt bn _ _ hinvA
            (fun b hb => hbn_r b (by unfold ast_base_names_opt; exact hb))
        rw [create_dfg_node_counter] at hretr
        rw [attach_operand_edge_some (mk_node_id (st.node_counter + 1))
          hretr]
        have hwBr := wparts_trans hw1 hwr (fun x hx => by simp at hx)
        have hwe := add_edge_wparts_src bn
          [mk_node_id (st.node_counter + 1 + 1)]
          (mk_node_id (st.node_counter + 1 + 1))
          (mk_node_id (st.node_counter + 1)) EdgeType.data_dependency []
          hwr.1
          (Or.inr (by simp))
          (Or.inl (wparts_node_ids_mono hwr _ heid0))
        have hwPre := wparts_trans hwBr hwe (fun x hx => Or.inl (by
          simp only [List.mem_singleton] at hx
          subst hx
          rw [hNr]
          simp [created_node]))
        obtain ⟨g', N, E, V, F, hw, hsh⟩ := tail _ _ _ _ _ _ hwPre
          ⟨Nr ++ [], by simp⟩
        exact ⟨g', N, E, V, F, hw, rfl, hsh⟩
    | some l =>
      dsimp only
      obtain ⟨gl, Nl, El, Vl, Fl, hwl, hretl, restl, hNl⟩ :=
        build_node_dfg_wparts l bn _ _ hinvA
          (fun b hb => hbn_l b (by unfold ast_base_names_opt; exact hb))
      rw [create_dfg_node_counter] at hretl
      have hwBl := wparts_trans hw1 hwl (fun x hx => by simp at hx)
      have hwel := add_edge_wparts_src bn
        [mk_node_id (st.node_counter + 1 + 1)]
        (mk_node_id (st.node_counter + 1 + 1))
        (mk_node_id (st.node_counter + 1)) EdgeType.data_dependency []
        hwl.1
        (Or.inr (by simp))
        (Or.inl (wparts_node_ids_mono hwl _ heid0))
      have hwPre2 := wparts_trans hwBl hwel (fun x hx => Or.inl (by
        simp only [List.mem_singleton] at hx
        subst hx
        rw [hNl]
        simp [created_node]))
      cases right with
      | none =>
        dsimp only
        rw [attach_operand_edge_some (mk_node_id (st.node_counter + 1))
          hretl]
        obtain ⟨g', N, E, V, F, hw, hsh⟩ := tail _ _ _ _ _ _ hwPre2
          ⟨Nl ++ [], by simp⟩
        exact ⟨g', N, E, V, F, hw, rfl, hsh⟩
      | some rt =>
        dsimp only
        rw [attach_operand_edge_some (mk_node_id (st.node_counter + 1))
          hretl]
        have hinv2 := BInv_step (fun x hx => by simp at hx) hinv hwPre2
        have heid2 := wparts_node_ids_mono hwel _
          (wparts_node_ids_mono hwl _ heid0)
        obtain ⟨gr, Nr, Er, Vr, Fr, hwr, hretr, restr, hNr⟩ :=
          build_node_dfg_wparts rt bn _ _ hinv2
            (fun b hb => hbn_r b (by unfold ast_base_names_opt; exact hb))
        rw [add_edge_node_counter] at hretr
        rw [attach_operand_edge_some (mk_node_id (st.node_counter + 1))
          hretr]
        have hwBr := wparts_trans hwPre2 hwr (fun x hx => by simp at hx)
        have hwe := add_edge_wparts_src bn
          [mk_node_id ((build_node_dfg (create_dfg_node st
            (ASTNode.expressionNode name op (ASTOpt.some l) (ASTOpt.some rt)
              args text)).1 l).1.node_counter + 1)]
          (mk_node_id ((build_node_dfg (create_dfg_node st
            (ASTNode.expressionNode name op (ASTOpt.some l) (ASTOpt.some rt)
              args text)).1 l).1.node_counter + 1))
          (mk_node_id (st.node_counter + 1)) EdgeType.data_dependency []
          hwr.1
          (Or.inr (by simp))
          (Or.inl (wparts_node_ids_mono hwr _ heid2))
        have hwPre3 := wparts_trans hwBr hwe (fun x hx => Or.inl (by
          simp only [List.mem_singleton] at hx
          subst hx
          rw [hNr]
          simp [created_node]))
        obtain ⟨g', N, E, V, F, hw, hsh⟩ := tail _ _ _ _ _ _ hwPre3
          ⟨Nl ++ (Nr ++ []), by simp⟩
        exact ⟨g', N, E, V, F, hw, rfl, hsh⟩

theorem build_children_edges_wparts_m : ∀ (cs : ASTList) (bn : List String)
    (st : BuilderState) (g : DFG) (pid : String) (et : EdgeType),
    BInv st g → (∀ b ∈ ast_base_names_list cs, b ∈ bn) →
    pid ∈ node_ids g →
    ∃ g' N E V F,
      wparts bn [pid] st g (build_children_edges st pid et cs) g' N E V F ∧
      (pid ∉ table_values st.variable_definitions →
       (∃ k, k ≤ st.node_counter ∧ pid = mk_node_id k) →
       ∃ tids,
         (E.filter (fun e => e.source_node_id == pid)).map
             (fun e => (e.target_node_id, e.edge_type, e.properties)) =
           tids.map (fun t => (t, et, ([] : List (String × String)))) ∧
         List.Forall₂ (fun (c : ASTNode) (t : String) => ∃ nd ∈ N,
           nd.node_id = t ∧ nd.node_type = get_dfg_node_type c ∧
           nd.name = get_node_name c) cs.toList tids)
  | ASTList.nil, bn, st, g, pid, et, hinv, hbn, hpid => by
    rw [build_children_edges_nil_eq]
    refine ⟨g, [], [], [], [], wparts_refl bn [pid] st g hinv.dfg_eq,
      fun _ _ => ⟨[], by simp, ?_⟩⟩
    show List.Forall₂ _ ASTList.nil.toList []
    unfold ASTList.toList
    exact List.Forall₂.nil
  | ASTList.cons c rest, bn, st, g, pid, et, hinv, hbn, hpid => by
    rw [build_children_edges_cons_eq]
    have hbn_c : ∀ b ∈ ast_base_names c, b ∈ bn := fun b hb => hbn b (by
      unfold ast_base_names_list
      rw [List.mem_append]
      exact Or.inl hb)
    have hbn_r : ∀ b ∈ ast_base_names_list rest, b ∈ bn := fun b hb =>
      hbn b (by
        unfold ast_base_names_list
        rw [List.mem_append]
        exact Or.inr hb)
    obtain ⟨gA, N1, E1, V1, F1, hw1, hret, rest1, hN1⟩ :=
      build_node_dfg_wparts c bn st g hinv hbn_c
    rw [attach_child_edge_some pid et hret]
    have hcidN1 : mk_node_id (st.node_counter + 1) ∈
        N1.map DFGNode.node_id := by
      rw [hN1]; simp [created_node]
    have hcidA : mk_node_id (st.node_counter + 1) ∈ node_ids gA := by
      unfold node_ids
      rw [hw1.2.2.1, List.map_append, List.mem_append]
      exact Or.inr hcidN1
    have hw2 := add_edge_wparts_src bn [pid] pid
      (mk_node_id (st.node_counter + 1)) et [] hw1.1
      (Or.inr (by simp))
      (Or.inl hcidA)
    have hw12 := wparts_trans
      (wparts_mono_A [pid] (fun x hx => by simp at hx) hw1)
      hw2 (fun x hx => Or.inr hx)
    have hinv2 := BInv_step (fun x hx => by
      simp only [List.mem_singleton] at hx
      subst hx
      exact hpid) hinv hw12
    have hpid2 := wparts_node_ids_mono hw12 pid hpid
    obtain ⟨gB, N3, E3, V3, F3, hw3, hfil3⟩ :=
      build_children_edges_wparts_m rest bn _ _ pid et hinv2 hbn_r hpid2
    refine ⟨_, _, _, _, _,
      wparts_trans hw12 hw3 (fun x hx => Or.inr hx), ?_⟩
    intro hnot hk
    have hsrc_ne : ∀ i ∈ N1.map DFGNode.node_id, i ≠ pid := by
      intro i hi hip
      rw [List.mem_map] at hi
      obtain ⟨nd, hnd, hid⟩ := hi
      obtain ⟨k', hk'1, hk'2, hk'3⟩ := hw1.2.2.2.2.2.2.1 nd hnd
      obtain ⟨k, hkle, hkeq⟩ := hk
      rw [← hid, hk'3, hkeq] at hip
      have := mk_node_id_inj hip
      omega
    have hnot2 : pid ∉ table_values
        (add_edge (build_node_dfg st c).1 pid
          (mk_node_id (st.node_counter + 1)) et []).variable_definitions := by
      intro hmem
      rw [hw12.2.2.2.2.1] at hmem
      unfold table_values at hmem
      rw [List.map_append, List.mem_append] at hmem
      cases hmem with
      | inl h =>
        have h2 : pid ∈ table_values V1 := by
          simpa [table_values] using h
        cases hw1.2.2.2.2.2.2.2.1 pid h2 with
        | inl h3 => exact hsrc_ne pid h3 rfl
        | inr h3 => simp at h3
      | inr h => exact hnot (by simpa [table_values] using h)
    have hk2 : ∃ k, k ≤ (add_edge (build_node_dfg st c).1 pid
        (mk_node_id (st.node_counter + 1)) et []).node_counter ∧
        pid = mk_node_id k := by
      obtain ⟨k, hkle, hkeq⟩ := hk
      exact ⟨k, le_trans hkle hw12.2.1, hkeq⟩
    obtain ⟨tids3, hmap3, hfa3⟩ := hfil3 hnot2 hk2
    refine ⟨mk_node_id (st.node_counter + 1) :: tids3, ?_, ?_⟩
    · have hE1nil : E1.filter (fun e => e.source_node_id == pid) = [] :=
        filter_eq_nil_of_false _ E1 (fun e he => by
          cases (hw1.2.2.2.2.2.2.2.2.2 e he).1 with
          | inl h => exact beq_eq_false_iff_ne.mpr (hsrc_ne _ h)
          | inr h =>
            cases h with
            | inl h2 =>
              exact beq_eq_false_iff_ne.mpr (fun hpe => hnot (hpe ▸ h2))
            | inr h2 => simp at h2)
      have hsing : [added_edge (build_node_dfg st c).1 pid
          (mk_node_id (st.node_counter + 1)) et []].filter
          (fun e => e.source_node_id == pid) =
          [added_edge (build_node_dfg st c).1 pid
            (mk_node_id (st.node_counter + 1)) et []] := by
        simp [List.filter, added_edge]
      rw [List.filter_append, List.filter_append, hE1nil, hsing]
      simp only [List.nil_append, List.singleton_append, List.map_cons,
        hmap3]
      rfl
    · refine List.Forall₂.cons ?_ ?_
      · refine ⟨created_node st c, ?_, rfl, rfl, rfl⟩
        rw [hN1]
        simp
      · refine List.Forall₂.imp ?_ hfa3
        intro a b hab
        obtain ⟨nd, hmem, hrest⟩ := hab
        exact ⟨nd, by simp [hmem], hrest⟩

theorem build_args_edges_wparts_m : ∀ (args : ASTList) (bn : List String)
    (st : BuilderState) (g : DFG) (pid : String),
    BInv st g → (∀ b ∈ ast_base_names_list args, b ∈ bn) →
    pid ∈ node_ids g →
    ∃ g' N E V F,
      wparts bn [pid] st g (build_args_edges st pid args) g' N E V F
  | ASTList.nil, bn, st, g, pid, hinv, hbn, hpid => by
    rw [build_args_edges_nil_eq]
    exact ⟨g, [], [], [], [], wparts_refl bn [pid] st g hinv.dfg_eq⟩
  | ASTList.cons a rest, bn, st, g, pid, hinv, hbn, hpid => by
    rw [build_args_edges_cons_eq]
    have hbn_a : ∀ b ∈ ast_base_names a, b ∈ bn := fun b hb => hbn b (by
      unfold ast_base_names_list
      rw [List.mem_append]
      exact Or.inl hb)
    have hbn_r : ∀ b ∈ ast_base_names_list rest, b ∈ bn := fun b hb =>
      hbn b (by
        unfold ast_base_names_list
        rw [List.mem_append]
        exact Or.inr hb)
    obtain ⟨gA, N1, E1, V1, F1, hw1, hret, rest1, hN1⟩ :=
      build_node_dfg_wparts a bn st g hinv hbn_a
    rw [attach_operand_edge_some pid hret]
    have hsrcmem : mk_node_id (st.node_counter + 1) ∈
        N1.map DFGNode.node_id := by
      rw [hN1]; simp [created_node]
    have hw2 := add_edge_wparts_src bn
      [mk_node_id (st.node_counter + 1)]
      (mk_node_id (st.node_counter + 1)) pid EdgeType.data_dependency []
      hw1.1
      (Or.inr (by simp))
      (Or.inl (wparts_node_ids_mono hw1 pid hpid))
    have hw12 := wparts_trans
      (wparts_mono_A [pid] (fun x hx => by simp at hx) hw1)
      hw2 (fun x hx => Or.inl (by
        simp only [List.mem_singleton] at hx
        subst hx
        exact hsrcmem))
    have hinv2 := BInv_step (fun x hx => by
      simp only [List.mem_singleton] at hx
      subst hx
      exact hpid) hinv hw12
    have hpid2 := wparts_node_ids_mono hw12 pid hpid
    obtain ⟨gB, N3, E3, V3, F3, hw3⟩ :=
      build_args_edges_wparts_m rest bn _ _ pid hinv2 hbn_r hpid2
    exact ⟨_, _, _, _, _,
      wparts_trans hw12 hw3 (fun x hx => Or.inr hx)⟩

end

/-- A filter by an everywhere-true predicate is the identity. -/
theorem filter_eq_self_of_true {α : Type} (p : α → Bool) :
    ∀ l : List α, (∀ a ∈ l, p a = true) → l.filter p = l
  | [], _ => rfl
  | a :: tl, h => by
    rw [List.filter_cons, h a (List.mem_cons_self a tl)]
    simp only [if_true]
    rw [filter_eq_self_of_true p tl (fun x hx => h x (by simp [hx]))]

/-- The inner loop of `_build_inter_scope_flows`: for one recorded
function, scan the snapshot's nodes and append a `function_call` edge
from the function's recorded node id to every expression node whose text
contains `<name>(`. -/
theorem inter_scope_inner : ∀ (ns : List DFGNode) (acc : BuilderState)
    (gacc : DFG) (fn : String × String),
    acc.current_dfg = some gacc →
    ∃ E,
      (ns.foldl (fun acc2 node =>
        if node.node_type == "expression" &&
            !((node.ast_text.getD "") == "") &&
            py_contains (node.ast_text.getD "") (fn.1 ++ "(") then
          add_edge acc2 fn.2 node.node_id EdgeType.function_call
        else acc2) acc).current_dfg =
        some { gacc with edges := gacc.edges ++ E } ∧
      ∀ e ∈ E, e.edge_type = EdgeType.function_call ∧
        e.source_node_id = fn.2 ∧
        e.target_node_id ∈ ns.map DFGNode.node_id
  | [], acc, gacc, fn, hd => by
    refine ⟨[], ?_, ?_⟩
    · rw [List.foldl_nil, hd]
      simp
    · intro e he; simp at he
  | n :: ns, acc, gacc, fn, hd => by
    rw [List.foldl_cons]
    by_cases hc : (n.node_type == "expression" &&
        !((n.ast_text.getD "") == "") &&
        py_contains (n.ast_text.getD "") (fn.1 ++ "(")) = true
    · rw [if_pos hc]
      obtain ⟨E, h1, h2⟩ := inter_scope_inner ns
        (add_edge acc fn.2 n.node_id EdgeType.function_call)
        { gacc with edges := gacc.edges ++
          [added_edge acc fn.2 n.node_id EdgeType.function_call []] } fn
        (add_edge_dfg fn.2 n.node_id EdgeType.function_call [] hd)
      refine ⟨added_edge acc fn.2 n.node_id EdgeType.function_call []
          :: E, ?_, ?_⟩
      · rw [h1]
        simp
      · intro e he
        rcases List.mem_cons.mp he with he0 | heE
        · subst he0
          exact ⟨rfl, rfl, by simp [added_edge]⟩
        · obtain ⟨ht, hs, htgt⟩ := h2 e heE
          exact ⟨ht, hs, by simp [htgt]⟩
    · rw [if_neg hc]
      obtain ⟨E, h1, h2⟩ := inter_scope_inner ns acc gacc fn hd
      refine ⟨E, h1, ?_⟩
      intro e he
      obtain ⟨ht, hs, htgt⟩ := h2 e he
      exact ⟨ht, hs, by simp [htgt]⟩

/-- The outer loop of `_build_inter_scope_flows` over the recorded
functions. -/
theorem inter_scope_outer (g : DFG) : ∀ (fns : List (String × String))
    (acc : BuilderState) (gacc : DFG),
    acc.current_dfg = some gacc →
    ∃ E,
      (fns.foldl (fun acc fn =>
        g.nodes.foldl (fun acc2 node =>
          if node.node_type == "expression" &&
              !((node.ast_text.getD "") == "") &&
              py_contains (node.ast_text.getD "") (fn.1 ++ "(") then
            add_edge acc2 fn.2 node.node_id EdgeType.function_call
          else acc2) acc) acc).current_dfg =
        some { gacc with edges := gacc.edges ++ E } ∧
      ∀ e ∈ E, e.edge_type = EdgeType.function_call ∧
        e.source_node_id ∈ fns.map Prod.snd ∧
        e.target_node_id ∈ node_ids g
  | [], acc, gacc, hd => by
    refine ⟨[], ?_, ?_⟩
    · rw [List.foldl_nil, hd]
      simp
    · intro e he; simp at he
  | fn :: fns, acc, gacc, hd => by
    rw [List.foldl_cons]
    obtain ⟨E1, h1, h2⟩ := inter_scope_inner g.nodes acc gacc fn hd
    obtain ⟨E2, h3, h4⟩ := inter_scope_outer g fns _ _ h1
    refine ⟨E1 ++ E2, ?_, ?_⟩
    · rw [h3]
      simp
    · intro e he
      rcases List.mem_append.mp he with he1 | he2
      · obtain ⟨ht, hs, htgt⟩ := h2 e he1
        exact ⟨ht, by simp [hs], htgt⟩
      · obtain ⟨ht, hs, htgt⟩ := h4 e he2
        exact ⟨ht, List.mem_cons_of_mem _ hs, htgt⟩

/-- `_build_inter_scope_flows` only appends `function_call` edges whose
sources are recorded function-definition ids and whose targets are
existing nodes; nodes, tables and counters are untouched. -/
theorem build_inter_scope_flows_spec {st : BuilderState} {g : DFG}
    (hd : st.current_dfg = some g) :
    ∃ E, (build_inter_scope_flows st).current_dfg =
        some { g with edges := g.edges ++ E } ∧
      ∀ e ∈ E, e.edge_type = EdgeType.function_call ∧
        e.source_node_id ∈ table_values st.function_definitions ∧
        e.target_node_id ∈ node_ids g := by
  unfold build_inter_scope_flows
  rw [hd]
  obtain ⟨E, h1, h2⟩ := inter_scope_outer g st.function_definitions.reverse
    st g hd
  refine ⟨E, h1, ?_⟩
  intro e he
  obtain ⟨ht, hs, htgt⟩ := h2 e he
  refine ⟨ht, ?_, htgt⟩
  rw [List.map_reverse, List.mem_reverse] at hs
  exact hs

/-- Any successful `build_dfg` run: every edge source is the id of a
node present in the result, and every edge target is either such an id
or one of the two synthetic forms. -/
theorem build_dfg_run_spec (st : BuilderState) (root : ASTNode)
    (cname : String) :
    ∃ st' dfg, build_dfg st (some root) cname = (st', some dfg) ∧
      ∀ e ∈ dfg.edges,
        e.source_node_id ∈ node_ids dfg ∧
        (e.target_node_id ∈ node_ids dfg ∨
         (∃ b ∈ ast_base_names root, e.target_node_id = "contract_" ++ b) ∨
         e.target_node_id = "init_" ++ e.source_node_id) := by
  unfold build_dfg
  dsimp only
  have hinv1 : BInv
      { st with
        current_dfg := some
          { contract_name := cname
            solidity_version := st.solidity_version
            nodes := []
            edges := [] }
        scope_stack := ["global"]
        current_scope := some "global"
        variable_definitions := []
        function_definitions := [] }
      { contract_name := cname
        solidity_version := st.solidity_version
        nodes := []
        edges := [] } := by
    refine ⟨rfl, ?_, ?_, ?_⟩
    · intro v hv; simp [table_values] at hv
    · intro v hv; simp [table_values] at hv
    · intro i hi; simp [node_ids] at hi
  obtain ⟨g2, N, E, V, F, hw, hret, rest, hN⟩ :=
    build_node_dfg_wparts root (ast_base_names root) _ _ hinv1
      (fun b hb => hb)
  have hinv2 := BInv_step (fun x hx => by simp at hx) hinv1 hw
  obtain ⟨E2, hd3, hprops⟩ := build_inter_scope_flows_spec hinv2.dfg_eq
  refine ⟨_, _, by rw [hd3], ?_⟩
  intro e he
  have hnid : node_ids { g2 with edges := g2.edges ++ E2 } = node_ids g2 :=
    node_ids_edges_ext g2 E2
  have hE : g2.edges = E := by
    rw [hw.2.2.2.1]
    rfl
  rw [show ({ g2 with edges := g2.edges ++ E2 } : DFG).edges =
    g2.edges ++ E2 from rfl, List.mem_append] at he
  cases he with
  | inl heW =>
    rw [hE] at heW
    obtain ⟨hsrc, htgt⟩ := hw.2.2.2.2.2.2.2.2.2 e heW
    constructor
    · rw [hnid]
      cases hsrc with
      | inl h =>
        unfold node_ids
        rw [hw.2.2.1]
        exact h
      | inr h =>
        cases h with
        | inl h2 => simp [table_values] at h2
        | inr h2 => simp at h2
    · cases htgt with
      | inl h => exact Or.inl (by rw [hnid]; exact h)
      | inr h =>
        cases h with
        | inl h2 => exact Or.inr (Or.inl h2)
        | inr h2 => exact Or.inr (Or.inr h2)
  | inr heF =>
    obtain ⟨ht, hs, htg⟩ := hprops e heF
    constructor
    · rw [hnid]
      exact hinv2.fun_closed _ hs
    · exact Or.inl (by rw [hnid]; exact htg)

/-- C5: in every DFG returned by `build_dfg`, each edge endpoint is
either the id of a node present in the DFG, or has one of the two
synthetic forms: `contract_<b>` for an inherited base-contract name `b`
appearing in the AST, or `init_<sourceId>` from a variable initializer.
No other dangling endpoint occurs. -/
theorem claim_C5 (st : BuilderState) (root : ASTNode) (cname : String)
    (st' : BuilderState) (dfg : DFG)
    (h : build_dfg st (some root) cname = (st', some dfg)) :
    ∀ e ∈ dfg.edges,
      (e.source_node_id ∈ node_ids dfg) ∧
      (e.target_node_id ∈ node_ids dfg ∨
       (∃ b ∈ ast_base_names root, e.target_node_id = "contract_" ++ b) ∨
       e.target_node_id = "init_" ++ e.source_node_id) := by
  obtain ⟨st2, dfg2, heq, hprop⟩ := build_dfg_run_spec st root cname
  have h2 := h.symm.trans heq
  injection h2 with ha hb
  injection hb with hc
  subst hc
  exact hprop

/-- The AST used to witness the edge-endpoint claims: a contract with an
inherited base and an initialized state variable. -/
def c5_root : ASTNode :=
  ASTNode.contractNode (some "C") ["Base"]
    (ASTList.cons (ASTNode.variableNode (some "x") true (some "uint256")
      (some "1") (some "uint256 x = 1")) ASTList.nil)
    (some "contract C is Base")

def c5_pair : BuilderState × Option DFG :=
  build_dfg (init_builder "0.8.0") (some c5_root) "C"

def empty_dfg : DFG :=
  { contract_name := "", solidity_version := "", nodes := [], edges := [] }

theorem claim_C5_witness :
    List.Forall (fun e =>
      (e.source_node_id ∈ node_ids (c5_pair.2.getD empty_dfg)) ∧
      (e.target_node_id ∈ node_ids (c5_pair.2.getD empty_dfg) ∨
       (∃ b ∈ ast_base_names c5_root,
         e.target_node_id = "contract_" ++ b) ∨
       e.target_node_id = "init_" ++ e.source_node_id))
      (c5_pair.2.getD empty_dfg).edges :=
  List.forall_iff_forall_mem.mpr
    (claim_C5 (init_builder "0.8.0") c5_root "C" c5_pair.1
      (c5_pair.2.getD empty_dfg) (by rfl))

/-- C10: in every DFG returned by `build_dfg`, the source endpoint of
every edge is the id of a node actually present in the DFG's node
collection — only targets can be synthetic. -/
theorem claim_C10 (st : BuilderState) (root : ASTNode) (cname : String)
    (st' : BuilderState) (dfg : DFG)
    (h : build_dfg st (some root) cname = (st', some dfg)) :
    ∀ e ∈ dfg.edges, e.source_node_id ∈ node_ids dfg := by
  obtain ⟨st2, dfg2, heq, hprop⟩ := build_dfg_run_spec st root cname
  have h2 := h.symm.trans heq
  injection h2 with ha hb
  injection hb with hc
  subst hc
  exact fun e he => (hprop e he).1

theorem claim_C10_witness :
    List.Forall (fun e =>
      e.source_node_id ∈ node_ids (c5_pair.2.getD empty_dfg))
      (c5_pair.2.getD empty_dfg).edges :=
  List.forall_iff_forall_mem.mpr
    (claim_C10 (init_builder "0.8.0") c5_root "C" c5_pair.1
      (c5_pair.2.getD empty_dfg) (by rfl))

/-- All edges of a source-filtered list whose image is a constant-typed
map share that edge type. -/
theorem filtered_edge_type {E : List DFGEdge} {tids : List String}
    {pid : String} {et : EdgeType}
    (h : (E.filter (fun e => e.source_node_id == pid)).map
        (fun e => (e.target_node_id, e.edge_type, e.properties)) =
      tids.map (fun t => (t, et, ([] : List (String × String))))) :
    ∀ e ∈ E, (e.source_node_id == pid) = true → e.edge_type = et := by
  intro e he hp
  have hmem : e ∈ E.filter (fun e => e.source_node_id == pid) :=
    List.mem_filter.mpr ⟨he, hp⟩
  have hmem2 : (e.target_node_id, e.edge_type, e.properties) ∈
      tids.map (fun t => (t, et, ([] : List (String × String)))) := by
    rw [← h]
    exact List.mem_map_of_mem _ hmem
  obtain ⟨t, ht, heq⟩ := List.mem_map.mp hmem2
  have h2 := congrArg (fun x : String × EdgeType ×
    List (String × String) => x.2.1) heq
  exact h2.symm

/-- A `build_dfg` run on a contract root: the result contains the
contract's node, and the `definition` edges leaving it are exactly one
per direct child (targeting that child's node, in order) followed by one
per inherited base name (targeting `contract_<base>`). -/
theorem build_dfg_contract_spec (st : BuilderState) (name : Option String)
    (bases : List String) (children : ASTList) (text : Option String)
    (cname : String) :
    ∃ st' dfg,
      build_dfg st (some (ASTNode.contractNode name bases children text))
        cname = (st', some dfg) ∧
      (∃ cnode ∈ dfg.nodes,
        cnode.node_id = mk_node_id (st.node_counter + 1) ∧
        cnode.node_type = "contract") ∧
      ∃ tids,
        (dfg.edges.filter (fun e =>
            e.source_node_id == mk_node_id (st.node_counter + 1) &&
            e.edge_type == EdgeType.definition)).map
          (fun e => e.target_node_id) =
          tids ++ bases.map (fun b => "contract_" ++ b) ∧
        List.Forall₂ (fun (c : ASTNode) (t : String) => ∃ nd ∈ dfg.nodes,
          nd.node_id = t ∧ nd.node_type = get_dfg_node_type c ∧
          nd.name = get_node_name c) children.toList tids := by
  unfold build_dfg
  dsimp only
  rw [build_node_dfg_contract_eq]
  have hinv1 : BInv
      { st with
        current_dfg := some
          { contract_name := cname
            solidity_version := st.solidity_version
            nodes := []
            edges := [] }
        scope_stack := ["global"]
        current_scope := some "global"
        variable_definitions := []
        function_definitions := [] }
      { contract_name := cname
        solidity_version := st.solidity_version
        nodes := []
        edges := [] } := by
    refine ⟨rfl, ?_, ?_, ?_⟩
    · intro v hv; simp [table_values] at hv
    · intro v hv; simp [table_values] at hv
    · intro i hi; simp [node_ids] at hi
  dsimp only
  rw [create_dfg_node_snd]
  dsimp only
  have hbn_ch : ∀ b ∈ ast_base_names_list children,
      b ∈ ast_base_names (ASTNode.contractNode name bases children text) :=
    fun b hb => by
      unfold ast_base_names
      rw [List.mem_append]
      exact Or.inr hb
  have hbn_bs : ∀ b ∈ bases,
      b ∈ ast_base_names (ASTNode.contractNode name bases children text) :=
    fun b hb => by
      unfold ast_base_names
      rw [List.mem_append]
      exact Or.inl hb
  have hw1 := create_dfg_node_wparts
    (ast_base_names (ASTNode.contractNode name bases children text)) []
    (ASTNode.contractNode name bases children text) hinv1.dfg_eq
  have hw2 := wparts_of_preserve
    (ast_base_names (ASTNode.contractNode name bases children text)) []
    hw1.1
    (enter_scope_dfg _ (py_or_str name "contract"))
    (enter_scope_vardefs _ (py_or_str name "contract"))
    (enter_scope_fundefs _ (py_or_str name "contract"))
    (enter_scope_counter _ (py_or_str name "contract"))
  have hw12 := wparts_trans hw1 hw2 (fun x hx => by simp at hx)
  have hinv2 := BInv_step (fun x hx => by simp at hx) hinv1 hw12
  obtain ⟨gC, NC, EC, VC, FC, hwC, hfilC⟩ :=
    build_children_edges_wparts_m children
      (ast_base_names (ASTNode.contractNode name bases children text)) _ _
      (mk_node_id (st.node_counter + 1)) EdgeType.definition hinv2
      hbn_ch (created_node_mem _ _ _)
  obtain ⟨tids, hmapC, hfaC⟩ := hfilC (by simp [table_values])
    ⟨st.node_counter + 1, by simp, rfl⟩
  obtain ⟨EB, hwB, hmapB⟩ :=
    build_base_contract_edges_wparts bases _ _
      (mk_node_id (st.node_counter + 1)) hwC.1 hbn_bs
  have hd_ex := (exit_scope_dfg _).trans hwB.1
  obtain ⟨E2, hd5, hprops2⟩ := build_inter_scope_flows_spec hd_ex
  refine ⟨_, _, by rw [hd5], ?_, ?_⟩
  · refine ⟨created_node
      { st with
        current_dfg := some
          { contract_name := cname
            solidity_version := st.solidity_version
            nodes := []
            edges := [] }
        scope_stack := ["global"]
        current_scope := some "global"
        variable_definitions := []
        function_definitions := [] }
      (ASTNode.contractNode name bases children text), ?_, rfl, rfl⟩
    show _ ∈ gC.nodes
    rw [hwC.2.2.1]
    simp
  · refine ⟨tids, ?_, ?_⟩
    · show ((((gC.edges ++ EB) ++ E2).filter _).map _) = _
      rw [hwC.2.2.2.1]
      dsimp only
      simp only [List.nil_append]
      have hfEC : EC.filter (fun e =>
          e.source_node_id == mk_node_id (st.node_counter + 1) &&
          e.edge_type == EdgeType.definition) =
          EC.filter (fun e =>
            e.source_node_id == mk_node_id (st.node_counter + 1)) := by
        apply List.filter_congr
        intro e he
        cases hsc : (e.source_node_id == mk_node_id (st.node_counter + 1))
          with
        | false => simp [hsc]
        | true =>
          have htp := filtered_edge_type hmapC e he hsc
          simp [hsc, htp]
      have hfEB : EB.filter (fun e =>
          e.source_node_id == mk_node_id (st.node_counter + 1) &&
          e.edge_type == EdgeType.definition) = EB := by
        apply filter_eq_self_of_true
        intro e he
        have hmem2 : (e.source_node_id, e.target_node_id, e.edge_type) ∈
            bases.map (fun b => (mk_node_id (st.node_counter + 1),
              "contract_" ++ b, EdgeType.definition)) := by
          rw [← hmapB]
          exact List.mem_map_of_mem _ he
        obtain ⟨b, hbm, heqb⟩ := List.mem_map.mp hmem2
        have hsrc := congrArg (fun x : String × String × EdgeType => x.1)
          heqb
        have htp := congrArg (fun x : String × String × EdgeType => x.2.2)
          heqb
        simp only at hsrc htp
        simp [← hsrc, ← htp]
      have hfE2 : E2.filter (fun e =>
          e.source_node_id == mk_node_id (st.node_counter + 1) &&
          e.edge_type == EdgeType.definition) = [] := by
        apply filter_eq_nil_of_false
        intro e he
        have ht := (hprops2 e he).1
        simp [ht]
      rw [List.filter_append, List.filter_append, hfEC, hfEB, hfE2]
      have hECmap : (EC.filter (fun e =>
          e.source_node_id == mk_node_id (st.node_counter + 1))).map
          (fun e => e.target_node_id) = tids := by
        have h := congrArg (List.map (fun x : String × EdgeType ×
          List (String × String) => x.1)) hmapC
        rw [List.map_map, List.map_map] at h
        simpa [Function.comp_def] using h
      have hEBmap : EB.map (fun e => e.target_node_id) =
          bases.map (fun b => "contract_" ++ b) := by
        have h := congrArg (List.map (fun x : String × String × EdgeType =>
          x.2.1)) hmapB
        rw [List.map_map, List.map_map] at h
        simpa [Function.comp_def] using h
      rw [List.append_nil, List.map_append, hECmap, hEBmap]
    · refine List.Forall₂.imp ?_ hfaC
      intro a b hab
      obtain ⟨nd, hmem, hrest⟩ := hab
      refine ⟨nd, ?_, hrest⟩
      show _ ∈ gC.nodes
      rw [hwC.2.2.1]
      rw [List.mem_append]
      exact Or.inr hmem

/-- C6: a contract AST node with direct declaration children yields a
contract DFGNode whose outgoing `definition` edges are exactly one per
direct child — targeting, in order, those children's DFGNodes — followed
by exactly one `definition` edge to the synthetic id `contract_<b>` for
each inherited base-contract name `b`. -/
theorem claim_C6 (st : BuilderState) (name : Option String)
    (bases : List String) (children : ASTList) (text : Option String)
    (cname : String) (st' : BuilderState) (dfg : DFG)
    (h : build_dfg st
        (some (ASTNode.contractNode name bases children text)) cname =
      (st', some dfg)) :
    (∃ cnode ∈ dfg.nodes,
      cnode.node_id = mk_node_id (st.node_counter + 1) ∧
      cnode.node_type = "contract") ∧
    ∃ tids,
      (dfg.edges.filter (fun e =>
          e.source_node_id == mk_node_id (st.node_counter + 1) &&
          e.edge_type == EdgeType.definition)).map
        (fun e => e.target_node_id) =
        tids ++ bases.map (fun b => "contract_" ++ b) ∧
      List.Forall₂ (fun (c : ASTNode) (t : String) => ∃ nd ∈ dfg.nodes,
        nd.node_id = t ∧ nd.node_type = get_dfg_node_type c ∧
        nd.name = get_node_name c) children.toList tids := by
  obtain ⟨st2, dfg2, heq, hprop⟩ :=
    build_dfg_contract_spec st name bases children text cname
  have h2 := h.symm.trans heq
  injection h2 with ha hb
  injection hb with hc
  subst hc
  exact hprop

theorem claim_C6_witness :
    (∃ cnode ∈ (c5_pair.2.getD empty_dfg).nodes,
      cnode.node_id = mk_node_id ((init_builder "0.8.0").node_counter + 1) ∧
      cnode.node_type = "contract") ∧
    ∃ tids,
      ((c5_pair.2.getD empty_dfg).edges.filter (fun e =>
          e.source_node_id ==
            mk_node_id ((init_builder "0.8.0").node_counter + 1) &&
          e.edge_type == EdgeType.definition)).map
        (fun e => e.target_node_id) =
        tids ++ ["Base"].map (fun b => "contract_" ++ b) ∧
      List.Forall₂ (fun (c : ASTNode) (t : String) =>
        ∃ nd ∈ (c5_pair.2.getD empty_dfg).nodes,
          nd.node_id = t ∧ nd.node_type = get_dfg_node_type c ∧
          nd.name = get_node_name c)
        (ASTList.cons (ASTNode.variableNode (some "x") true (some "uint256")
          (some "1") (some "uint256 x = 1")) ASTList.nil).toList tids :=
  claim_C6 (init_builder "0.8.0") (some "C") ["Base"]
    (ASTList.cons (ASTNode.variableNode (some "x") true (some "uint256")
      (some "1") (some "uint256 x = 1")) ASTList.nil)
    (some "contract C is Base") "C" c5_pair.1
    (c5_pair.2.getD empty_dfg) (by rfl)

/-- The overloaded-function family: two functions *both* named `f`
(legal Solidity overloading), the first declaring and referencing the
local variable `y`, the second referencing the same name from its own
body. -/
def c1_root (y : String) : ASTNode :=
  ASTNode.genericNode "source_file" none
    (ASTList.cons (ASTNode.functionNode (some "f") false [] []
      (ASTList.cons (ASTNode.variableNode (some y) false (some "uint256")
        none (some y))
      (ASTList.cons (ASTNode.expressionNode (some y) none ASTOpt.none
        ASTOpt.none ASTList.nil (some y))
       ASTList.nil)) (some "function f one"))
    (ASTList.cons (ASTNode.functionNode (some "f") false [] []
      (ASTList.cons (ASTNode.expressionNode (some y) none ASTOpt.none
        ASTOpt.none ASTList.nil (some y))
       ASTList.nil) (some "function f two"))
     ASTList.nil)) (some "src")

/-- Two appends with distinct leading characters are distinct strings. -/
theorem append_head_ne {s1 s2 : String} {c1 c2 : Char}
    (h1 : s1.data.head? = some c1) (h2 : s2.data.head? = some c2)
    (hne : c1 ≠ c2) (x1 x2 : String) :
    (s1 ++ x1 == s2 ++ x2) = false := by
  rw [beq_eq_false_iff_ne]
  intro h
  have hd := congrArg String.data h
  rw [string_data_append, string_data_append] at hd
  cases hs1 : s1.data with
  | nil => rw [hs1] at h1; simp at h1
  | cons a t1 =>
    cases hs2 : s2.data with
    | nil => rw [hs2] at h2; simp at h2
    | cons b t2 =>
      rw [hs1] at h1
      rw [hs2] at h2
      simp at h1 h2
      rw [hs1, hs2, List.cons_append, List.cons_append] at hd
      injection hd with hc _
      subst h1 h2
      exact hne hc

set_option maxHeartbeats 2000000 in
/-- The walk of the overloaded-function family, fully evaluated: both
function bodies run under the same scope string `f_function`, so the
reference in the *second* body's expression (node 6) resolves against
the definition recorded by the *first* body (node 3) and receives a
def-use edge, exactly like the same-body reference (node 4). -/
theorem c1_walk (y : String) (hy : (y == "") = false) :
    (build_node_dfg
      { solidity_version := "0.8.0"
        current_dfg := some
          { contract_name := "C"
            solidity_version := "0.8.0"
            nodes := []
            edges := [] }
        current_scope := some "global"
        scope_stack := ["global"]
        variable_definitions := []
        function_definitions := []
        node_counter := 0
        edge_counter := 0 } (c1_root y)).1.current_dfg =
    some
      { contract_name := "C"
        solidity_version := "0.8.0"
        nodes :=
          [{ node_id := mk_node_id 1, ast_text := some "src"
             node_type := "source_file", name := none, data_type := none
             scope := some "global", properties := [] },
           { node_id := mk_node_id 2, ast_text := some "function f one"
             node_type := "function", name := some "f", data_type := none
             scope := some "global", properties := [] },
           { node_id := mk_node_id 3, ast_text := some y
             node_type := "local_variable", name := some y
             data_type := some "uint256", scope := some "f_function"
             properties := [] },
           { node_id := mk_node_id 4, ast_text := some y
             node_type := "expression", name := some y, data_type := none
             scope := some "f_function", properties := [] },
           { node_id := mk_node_id 5, ast_text := some "function f two"
             node_type := "function", name := some "f", data_type := none
             scope := some "global", properties := [] },
           { node_id := mk_node_id 6, ast_text := some y
             node_type := "expression", name := some y, data_type := none
             scope := some "f_function", properties := [] }]
        edges :=
          [{ edge_id := mk_edge_id 1, source_node_id := mk_node_id 2
             target_node_id := mk_node_id 3
             edge_type := EdgeType.control_dependency, properties := [] },
           { edge_id := mk_edge_id 2, source_node_id := mk_node_id 3
             target_node_id := mk_node_id 4
             edge_type := EdgeType.data_dependency
             properties := [("relation", "def-use")] },
           { edge_id := mk_edge_id 3, source_node_id := mk_node_id 2
             target_node_id := mk_node_id 4
             edge_type := EdgeType.control_dependency, properties := [] },
           { edge_id := mk_edge_id 4, source_node_id := mk_node_id 1
             target_node_id := mk_node_id 2
             edge_type := EdgeType.control_dependency, properties := [] },
           { edge_id := mk_edge_id 5, source_node_id := mk_node_id 3
             target_node_id := mk_node_id 6
             edge_type := EdgeType.data_dependency
             properties := [("relation", "def-use")] },
           { edge_id := mk_edge_id 6, source_node_id := mk_node_id 5
             target_node_id := mk_node_id 6
             edge_type := EdgeType.control_dependency, properties := [] },
           { edge_id := mk_edge_id 7, source_node_id := mk_node_id 1
             target_node_id := mk_node_id 5
             edge_type := EdgeType.control_dependency, properties := [] }]
      } := by
  have hgf := append_head_ne
    (rfl : ("global." : String).data.head? = some 'g')
    (rfl : ("f_function." : String).data.head? = some 'f')
    (by decide) y y
  simp [c1_root, build_node_dfg_generic_eq, build_node_dfg_function_eq,
    build_node_dfg_variable_eq, build_node_dfg_expression_eq,
    build_children_edges_cons_eq, build_children_edges_nil_eq,
    build_args_edges_nil_eq, attach_child_edge, attach_operand_edge,
    create_dfg_node, generate_node_id, dfg_add_node, add_edge,
    generate_edge_id, enter_scope, exit_scope, build_params,
    handle_variable_reference, List.lookup, py_or_str, ast_text,
    get_dfg_node_type, get_node_name, get_node_data_type, ast_name,
    List.foldl_nil, List.foldl_cons, Option.getD_some, Option.getD_none,
    hy, hgf, beq_self_eq_true, Bool.false_eq_true, if_false, if_true]

/-- C1 (divergence witness): resolution in
`DFGBuilder._handle_variable_reference` is keyed by the scope *string*
`<functionName>_function`, so in the overloaded-function family
`c1_root y` the two distinct function bodies share the key
`f_function`: alongside the claimed same-scope def-use edge
(`dfg_node_3 -> dfg_node_4`), the reference in the *second* function's
body — node 6, the target of the second function node's
control-dependency edge — also receives a `data_dependency` edge with
`relation=def-use` from the first body's definition node
(`dfg_node_3 -> dfg_node_6`). The claim's scope-isolation half forbids
that edge, so scope isolation fails across distinct function bodies
that share a name. -/
theorem claim_C1 (y : String) (hy : (y == "") = false)
    (st' : BuilderState) (dfg : DFG)
    (h : build_dfg (init_builder "0.8.0") (some (c1_root y)) "C" =
      (st', some dfg)) :
    (∃ dn ∈ dfg.nodes, dn.node_id = mk_node_id 3 ∧
      dn.node_type = "local_variable" ∧ dn.name = some y ∧
      dn.scope = some "f_function") ∧
    (∃ en ∈ dfg.nodes, en.node_id = mk_node_id 4 ∧
      en.node_type = "expression" ∧ en.name = some y) ∧
    (∃ fn ∈ dfg.nodes, fn.node_id = mk_node_id 5 ∧
      fn.node_type = "function" ∧ fn.name = some "f") ∧
    (∃ gn ∈ dfg.nodes, gn.node_id = mk_node_id 6 ∧
      gn.node_type = "expression" ∧ gn.name = some y) ∧
    (∃ e ∈ dfg.edges, e.source_node_id = mk_node_id 5 ∧
      e.target_node_id = mk_node_id 6 ∧
      e.edge_type = EdgeType.control_dependency) ∧
    (∃ e ∈ dfg.edges,
      e.source_node_id = mk_node_id 3 ∧ e.target_node_id = mk_node_id 4 ∧
      e.edge_type = EdgeType.data_dependency ∧
      e.properties = [("relation", "def-use")]) ∧
    (∃ e ∈ dfg.edges,
      e.source_node_id = mk_node_id 3 ∧ e.target_node_id = mk_node_id 6 ∧
      e.edge_type = EdgeType.data_dependency ∧
      e.properties = [("relation", "def-use")]) := by
  unfold build_dfg at h
  dsimp only at h
  have h2 := congrArg Prod.snd h
  dsimp only at h2
  obtain ⟨E2, hd5, hprops2⟩ := build_inter_scope_flows_spec (c1_walk y hy)
  have h3 := h2.symm.trans hd5
  injection h3 with h4
  subst h4
  dsimp only
  refine ⟨?_, ?_, ?_, ?_, ?_, ?_, ?_⟩
  · refine ⟨{ node_id := mk_node_id 3
              ast_text := some y
              node_type := "local_variable"
              name := some y
              data_type := some "uint256"
              scope := some "f_function"
              properties := [] }, by simp, rfl, rfl, rfl, rfl⟩
  · refine ⟨{ node_id := mk_node_id 4
              ast_text := some y
              node_type := "expression"
              name := some y
              data_type := none
              scope := some "f_function"
              properties := [] }, by simp, rfl, rfl, rfl⟩
  · refine ⟨{ node_id := mk_node_id 5
              ast_text := some "function f two"
              node_type := "function"
              name := some "f"
              data_type := none
              scope := some "global"
              properties := [] }, by simp, rfl, rfl, rfl⟩
  · refine ⟨{ node_id := mk_node_id 6
              ast_text := some y
              node_type := "expression"
              name := some y
              data_type := none
              scope := some "f_function"
              properties := [] }, by simp, rfl, rfl, rfl⟩
  · refine ⟨{ edge_id := mk_edge_id 6
              source_node_id := mk_node_id 5
              target_node_id := mk_node_id 6
              edge_type := EdgeType.control_dependency
              properties := [] },
      by simp, rfl, rfl, rfl⟩
  · refine ⟨{ edge_id := mk_edge_id 2
              source_node_id := mk_node_id 3
              target_node_id := mk_node_id 4
              edge_type := EdgeType.data_dependency
              properties := [("relation", "def-use")] },
      by simp, rfl, rfl, rfl, rfl⟩
  · refine ⟨{ edge_id := mk_edge_id 5
              source_node_id := mk_node_id 3
              target_node_id := mk_node_id 6
              edge_type := EdgeType.data_dependency
              properties := [("relation", "def-use")] },
      by simp, rfl, rfl, rfl, rfl⟩

def c1w_pair : BuilderState × Option DFG :=
  build_dfg (init_builder "0.8.0") (some (c1_root "y")) "C"

theorem claim_C1_witness :
    (∃ dn ∈ (c1w_pair.2.getD empty_dfg).nodes, dn.node_id = mk_node_id 3 ∧
      dn.node_type = "local_variable" ∧ dn.name = some "y" ∧
      dn.scope = some "f_function") ∧
    (∃ en ∈ (c1w_pair.2.getD empty_dfg).nodes, en.node_id = mk_node_id 4 ∧
      en.node_type = "expression" ∧ en.name = some "y") ∧
    (∃ fn ∈ (c1w_pair.2.getD empty_dfg).nodes, fn.node_id = mk_node_id 5 ∧
      fn.node_type = "function" ∧ fn.name = some "f") ∧
    (∃ gn ∈ (c1w_pair.2.getD empty_dfg).nodes, gn.node_id = mk_node_id 6 ∧
      gn.node_type = "expression" ∧ gn.name = some "y") ∧
    (∃ e ∈ (c1w_pair.2.getD empty_dfg).edges,
      e.source_node_id = mk_node_id 5 ∧
      e.target_node_id = mk_node_id 6 ∧
      e.edge_type = EdgeType.control_dependency) ∧
    (∃ e ∈ (c1w_pair.2.getD empty_dfg).edges,
      e.source_node_id = mk_node_id 3 ∧ e.target_node_id = mk_node_id 4 ∧
      e.edge_type = EdgeType.data_dependency ∧
      e.properties = [("relation", "def-use")]) ∧
    (∃ e ∈ (c1w_pair.2.getD empty_dfg).edges,
      e.source_node_id = mk_node_id 3 ∧ e.target_node_id = mk_node_id 6 ∧
      e.edge_type = EdgeType.data_dependency ∧
      e.properties = [("relation", "def-use")]) :=
  claim_C1 "y" (by decide) c1w_pair.1 (c1w_pair.2.getD empty_dfg) (by rfl)

/-- The state-variable family: a contract `C` declaring state variable
`y` and a function `f` whose body references `y`. -/
def c2_root (y : String) : ASTNode :=
  ASTNode.contractNode (some "C") []
    (ASTList.cons (ASTNode.variableNode (some y) true (some "uint256")
      none (some y))
    (ASTList.cons (ASTNode.functionNode (some "f") false [] []
      (ASTList.cons (ASTNode.expressionNode (some y) none ASTOpt.none
        ASTOpt.none ASTList.nil (some y))
       ASTList.nil) (some "function f"))
     ASTList.nil)) (some "contract C")

set_option maxHeartbeats 2000000 in
/-- The walk of the state-variable family, fully evaluated: the
definition is recorded under the contract scope key `C.<y>`, so the
reference's lookups under `f_function.<y>` and `global.<y>` both miss
and no data-dependency edge is emitted. -/
theorem c2_walk (y : String) (hy : (y == "") = false) :
    (build_node_dfg
      { solidity_version := "0.8.0"
        current_dfg := some
          { contract_name := "C"
            solidity_version := "0.8.0"
            nodes := []
            edges := [] }
        current_scope := some "global"
        scope_stack := ["global"]
        variable_definitions := []
        function_definitions := []
        node_counter := 0
        edge_counter := 0 } (c2_root y)).1.current_dfg =
    some
      { contract_name := "C"
        solidity_version := "0.8.0"
        nodes :=
          [{ node_id := mk_node_id 1, ast_text := some "contract C"
             node_type := "contract", name := some "C", data_type := none
             scope := some "global", properties := [] },
           { node_id := mk_node_id 2, ast_text := some y
             node_type := "state_variable", name := some y
             data_type := some "uint256", scope := some "C"
             properties := [] },
           { node_id := mk_node_id 3, ast_text := some "function f"
             node_type := "function", name := some "f", data_type := none
             scope := some "C", properties := [] },
           { node_id := mk_node_id 4, ast_text := some y
             node_type := "expression", name := some y, data_type := none
             scope := some "f_function", properties := [] }]
        edges :=
          [{ edge_id := mk_edge_id 1, source_node_id := mk_node_id 1
             target_node_id := mk_node_id 2
             edge_type := EdgeType.definition, properties := [] },
           { edge_id := mk_edge_id 2, source_node_id := mk_node_id 3
             target_node_id := mk_node_id 4
             edge_type := EdgeType.control_dependency, properties := [] },
           { edge_id := mk_edge_id 3, source_node_id := mk_node_id 1
             target_node_id := mk_node_id 3
             edge_type := EdgeType.definition, properties := [] }]
      } := by
  have hfC := append_head_ne
    (rfl : ("f_function." : String).data.head? = some 'f')
    (rfl : ("C." : String).data.head? = some 'C')
    (by decide) y y
  have hgC := append_head_ne
    (rfl : ("global." : String).data.head? = some 'g')
    (rfl : ("C." : String).data.head? = some 'C')
    (by decide) y y
  simp [c2_root, build_node_dfg_contract_eq, build_node_dfg_function_eq,
    build_node_dfg_variable_eq, build_node_dfg_expression_eq,
    build_children_edges_cons_eq, build_children_edges_nil_eq,
    build_args_edges_nil_eq, attach_child_edge, attach_operand_edge,
    create_dfg_node, generate_node_id, dfg_add_node, add_edge,
    generate_edge_id, enter_scope, exit_scope, build_params,
    build_base_contract_edges,
    handle_variable_reference, List.lookup, py_or_str, ast_text,
    get_dfg_node_type, get_node_name, get_node_data_type, ast_name,
    List.foldl_nil, List.foldl_cons, Option.getD_some, Option.getD_none,
    hy, hfC, hgC, beq_self_eq_true, Bool.false_eq_true, if_false, if_true]

/-- C2 (divergence witness): in the family `c2_root y` — a state
variable `y` declared at contract scope and referenced inside a function
body — the definition node and the referencing expression node both
exist, yet the DFG `build_dfg` returns contains *no* `data_dependency`
edge at all: the definition is recorded under the key `C.<y>` while the
use-resolution fallback probes `global.<y>`, so the promised
`relation=state-var-use` edge is never created. -/
theorem claim_C2 (y : String) (hy : (y == "") = false)
    (st' : BuilderState) (dfg : DFG)
    (h : build_dfg (init_builder "0.8.0") (some (c2_root y)) "C" =
      (st', some dfg)) :
    (∃ dn ∈ dfg.nodes, dn.node_id = mk_node_id 2 ∧
      dn.node_type = "state_variable" ∧ dn.name = some y ∧
      dn.scope = some "C") ∧
    (∃ en ∈ dfg.nodes, en.node_id = mk_node_id 4 ∧
      en.node_type = "expression" ∧ en.name = some y ∧
      en.scope = some "f_function") ∧
    (∀ e ∈ dfg.edges, e.edge_type ≠ EdgeType.data_dependency) := by
  unfold build_dfg at h
  dsimp only at h
  have h2 := congrArg Prod.snd h
  dsimp only at h2
  obtain ⟨E2, hd5, hprops2⟩ := build_inter_scope_flows_spec (c2_walk y hy)
  have h3 := h2.symm.trans hd5
  injection h3 with h4
  subst h4
  dsimp only
  refine ⟨?_, ?_, ?_⟩
  · refine ⟨{ node_id := mk_node_id 2
              ast_text := some y
              node_type := "state_variable"
              name := some y
              data_type := some "uint256"
              scope := some "C"
              properties := [] }, by simp, rfl, rfl, rfl, rfl⟩
  · refine ⟨{ node_id := mk_node_id 4
              ast_text := some y
              node_type := "expression"
              name := some y
              data_type := none
              scope := some "f_function"
              properties := [] }, by simp, rfl, rfl, rfl, rfl⟩
  · intro e he htype
    rw [List.mem_append] at he
    cases he with
    | inl heW =>
      simp only [List.mem_cons, List.not_mem_nil, or_false] at heW
      rcases heW with rfl | rfl | rfl <;> simp_all
    | inr heF =>
      have := (hprops2 e heF).1
      rw [this] at htype
      simp at htype

def c2w_pair : BuilderState × Option DFG :=
  build_dfg (init_builder "0.8.0") (some (c2_root "x")) "C"

theorem claim_C2_witness :
    (∃ dn ∈ (c2w_pair.2.getD empty_dfg).nodes, dn.node_id = mk_node_id 2 ∧
      dn.node_type = "state_variable" ∧ dn.name = some "x" ∧
      dn.scope = some "C") ∧
    (∃ en ∈ (c2w_pair.2.getD empty_dfg).nodes, en.node_id = mk_node_id 4 ∧
      en.node_type = "expression" ∧ en.name = some "x" ∧
      en.scope = some "f_function") ∧
    (∀ e ∈ (c2w_pair.2.getD empty_dfg).edges,
      e.edge_type ≠ EdgeType.data_dependency) :=
  claim_C2 "x" (by decide) c2w_pair.1 (c2w_pair.2.getD empty_dfg) (by rfl)

/-! ## The AST builder's id assignment (`ast_builder.py`)

`ASTBuilder.build_node` draws a fresh id from `generate_node_id`
(`node_<k>`, counter pre-incremented) before recursing: contract and
function nodes recurse into their `contract_body` / `function_body`
children, variable declarations are leaves, expression nodes recurse
into non-punctuation children, and every other node recurses into all
children. Only the id assignment is at issue in the claim, so the
builder is modelled with the id and the recursion structure. -/

mutual

inductive TSNode where
  | mk (ty : String) (text : String) (children : TSList)

inductive TSList where
  | nil
  | cons (hd : TSNode) (tl : TSList)

end

def TSNode.ty : TSNode → String
  | TSNode.mk t _ _ => t

mutual

inductive BNode where
  | mk (node_id : String) (children : BList)

inductive BList where
  | nil
  | cons (hd : BNode) (tl : BList)

end

def BList.append : BList → BList → BList
  | BList.nil, l => l
  | BList.cons a t, l => BList.cons a (t.append l)

/-- `ASTBuilder.generate_node_id`: the id rendered for counter value `k`. -/
def mk_ast_node_id (k : Nat) : String := "node_" ++ nat_repr k

theorem mk_ast_node_id_inj {a b : Nat}
    (h : mk_ast_node_id a = mk_ast_node_id b) : a = b := by
  apply nat_repr_inj
  have h2 := congrArg String.data h
  rw [mk_ast_node_id, mk_ast_node_id, string_data_append,
    string_data_append] at h2
  exact string_ext (List.append_cancel_left h2)

mutual

/-- `ASTBuilder.build_node`: pre-increment the counter, render the id,
then dispatch on the tree-sitter node type. -/
def build_node : Nat → TSNode → Nat × BNode
  | c, TSNode.mk ty _ chs =>
    let c1 := c + 1
    let nid := mk_ast_node_id c1
    if ty == "contract_declaration" then
      let r := build_body_lists "contract_body" c1 chs
      (r.1, BNode.mk nid r.2)
    else if ty == "function_definition" ||
        ty == "constructor_definition" then
      let r := build_body_lists "function_body" c1 chs
      (r.1, BNode.mk nid r.2)
    else if ty == "state_variable_declaration" ||
        ty == "variable_declaration" then
      (c1, BNode.mk nid BList.nil)
    else if ty == "binary_expression" || ty == "unary_expression" ||
        ty == "assignment_expression" || ty == "call_expression" ||
        ty == "member_expression" then
      let r := build_expr_operands c1 chs
      (r.1, BNode.mk nid r.2)
    else
      let r := build_list c1 chs
      (r.1, BNode.mk nid r.2)

/-- The plain child loop of `build_generic_node`. -/
def build_list : Nat → TSList → Nat × BList
  | c, TSList.nil => (c, BList.nil)
  | c, TSList.cons ch rest =>
    let r1 := build_node c ch
    let r2 := build_list r1.1 rest
    (r2.1, BList.cons r1.2 r2.2)

/-- The nested body loop of `build_contract_node` /
`build_function_node` / `build_constructor_node`: only children tagged
with the body type are entered, and their children are built in order. -/
def build_body_lists : String → Nat → TSList → Nat × BList
  | _, c, TSList.nil => (c, BList.nil)
  | tag, c, TSList.cons (TSNode.mk ty _ bchs) rest =>
    if ty == tag then
      let r1 := build_list c bchs
      let r2 := build_body_lists tag r1.1 rest
      (r2.1, r1.2.append r2.2)
    else
      build_body_lists tag c rest

/-- The operand loop of `build_expression_node`: punctuation children
are skipped, all others are built in order. -/
def build_expr_operands : Nat → TSList → Nat × BList
  | c, TSList.nil => (c, BList.nil)
  | c, TSList.cons ch rest =>
    if ch.ty == ";" || ch.ty == "," || ch.ty == "(" || ch.ty == ")" ||
        ch.ty == "\x7b" || ch.ty == "\x7d" then
      build_expr_operands c rest
    else
      let r1 := build_node c ch
      let r2 := build_expr_operands r1.1 rest
      (r2.1, BList.cons r1.2 r2.2)

end

mutual

/-- The ids of a built subtree in pre-order (visitation order). -/
def preorder : BNode → List String
  | BNode.mk nid cs => nid :: preorder_list cs

def preorder_list : BList → List String
  | BList.nil => []
  | BList.cons a t => preorder a ++ preorder_list t

end

theorem preorder_append : ∀ (a b : BList),
    preorder_list (a.append b) = preorder_list a ++ preorder_list b
  | BList.nil, b => by
    rw [show BList.append BList.nil b = b from rfl]
    rw [show preorder_list BList.nil = [] from rfl]
    simp
  | BList.cons x t, b => by
    rw [show BList.append (BList.cons x t) b =
      BList.cons x (t.append b) from rfl]
    rw [show preorder_list (BList.cons x (t.append b)) =
      preorder x ++ preorder_list (t.append b) from rfl]
    rw [preorder_append t b]
    rw [show preorder_list (BList.cons x t) =
      preorder x ++ preorder_list t from rfl]
    rw [List.append_assoc]

/-- The consecutive counter values `a, a+1, …, a+n-1`. -/
def consec : Nat → Nat → List Nat
  | _, 0 => []
  | a, n + 1 => a :: consec (a + 1) n

theorem consec_append : ∀ (n : Nat) (a m : Nat),
    consec a n ++ consec (a + n) m = consec a (n + m)
  | 0, a, m => by simp [consec]
  | n + 1, a, m => by
    rw [show consec a (n + 1) = a :: consec (a + 1) n from rfl]
    rw [List.cons_append]
    rw [show a + (n + 1) = (a + 1) + n from by omega]
    rw [consec_append n (a + 1) m]
    rw [show n + 1 + m = (n + m) + 1 from by omega]
    rfl

theorem consec_chain : ∀ (n a : Nat), List.Chain' (· < ·) (consec a n)
  | 0, a => by simp [consec]
  | 1, a => by simp [consec]
  | n + 2, a => by
    rw [show consec a (n + 2) = a :: (a + 1) :: consec (a + 2) n from rfl]
    rw [List.chain'_cons]
    exact ⟨by omega, consec_chain (n + 1) (a + 1)⟩

/-! The counter discipline of one `build_node` invocation: starting from
counter `c`, a subtree build assigns exactly the consecutive ids
`node_<c+1> … node_<c+n>` in pre-order. -/

mutual

theorem build_node_consec : ∀ (t : TSNode) (c : Nat),
    ∃ n, 0 < n ∧ (build_node c t).1 = c + n ∧
      preorder (build_node c t).2 = (consec (c + 1) n).map mk_ast_node_id
  | TSNode.mk ty tx chs, c => by
    unfold build_node
    dsimp only
    split
    · obtain ⟨m, h1, h2⟩ := build_body_lists_consec "contract_body" chs
        (c + 1)
      refine ⟨m + 1, by omega, by omega, ?_⟩
      rw [show preorder (BNode.mk (mk_ast_node_id (c + 1))
        (build_body_lists "contract_body" (c + 1) chs).2) =
        mk_ast_node_id (c + 1) ::
          preorder_list (build_body_lists "contract_body" (c + 1) chs).2
        from rfl]
      rw [h2]
      rw [show consec (c + 1) (m + 1) =
        (c + 1) :: consec (c + 2) m from rfl]
      rfl
    · split
      · obtain ⟨m, h1, h2⟩ := build_body_lists_consec "function_body" chs
          (c + 1)
        refine ⟨m + 1, by omega, by omega, ?_⟩
        rw [show preorder (BNode.mk (mk_ast_node_id (c + 1))
          (build_body_lists "function_body" (c + 1) chs).2) =
          mk_ast_node_id (c + 1) ::
            preorder_list (build_body_lists "function_body" (c + 1) chs).2
          from rfl]
        rw [h2]
        rw [show consec (c + 1) (m + 1) =
          (c + 1) :: consec (c + 2) m from rfl]
        rfl
      · split
        · exact ⟨1, by omega, by omega, rfl⟩
        · split
          · obtain ⟨m, h1, h2⟩ := build_expr_operands_consec chs (c + 1)
            refine ⟨m + 1, by omega, by omega, ?_⟩
            rw [show preorder (BNode.mk (mk_ast_node_id (c + 1))
              (build_expr_operands (c + 1) chs).2) =
              mk_ast_node_id (c + 1) ::
                preorder_list (build_expr_operands (c + 1) chs).2
              from rfl]
            rw [h2]
            rw [show consec (c + 1) (m + 1) =
              (c + 1) :: consec (c + 2) m from rfl]
            rfl
          · obtain ⟨m, h1, h2⟩ := build_list_consec chs (c + 1)
            refine ⟨m + 1, by omega, by omega, ?_⟩
            rw [show preorder (BNode.mk (mk_ast_node_id (c + 1))
              (build_list (c + 1) chs).2) =
              mk_ast_node_id (c + 1) ::
                preorder_list (build_list (c + 1) chs).2
              from rfl]
            rw [h2]
            rw [show consec (c + 1) (m + 1) =
              (c + 1) :: consec (c + 2) m from rfl]
            rfl

theorem build_list_consec : ∀ (ts : TSList) (c : Nat),
    ∃ n, (build_list c ts).1 = c + n ∧
      preorder_list (build_list c ts).2 =
        (consec (c + 1) n).map mk_ast_node_id
  | TSList.nil, c => ⟨0, rfl, rfl⟩
  | TSList.cons ch rest, c => by
    obtain ⟨n1, hp1, h1, h2⟩ := build_node_consec ch c
    obtain ⟨n2, h3, h4⟩ := build_list_consec rest (build_node c ch).1
    refine ⟨n1 + n2, ?_, ?_⟩
    · rw [show (build_list c (TSList.cons ch rest)).1 =
        (build_list (build_node c ch).1 rest).1 from rfl, h3, h1]
      omega
    rw [show build_list c (TSList.cons ch rest) =
      ((build_list (build_node c ch).1 rest).1,
       BList.cons (build_node c ch).2
         (build_list (build_node c ch).1 rest).2) from rfl]
    rw [show preorder_list (BList.cons (build_node c ch).2
      (build_list (build_node c ch).1 rest).2) =
      preorder (build_node c ch).2 ++
        preorder_list (build_list (build_node c ch).1 rest).2 from rfl]
    rw [h2, h4, h1]
    rw [show c + n1 + 1 = (c + 1) + n1 from by omega]
    rw [← List.map_append, consec_append]

theorem build_body_lists_consec : ∀ (tag : String) (ts : TSList) (c : Nat),
    ∃ n, (build_body_lists tag c ts).1 = c + n ∧
      preorder_list (build_body_lists tag c ts).2 =
        (consec (c + 1) n).map mk_ast_node_id
  | tag, TSList.nil, c => ⟨0, rfl, rfl⟩
  | tag, TSList.cons (TSNode.mk ty tx bchs) rest, c => by
    unfold build_body_lists
    dsimp only
    split
    · obtain ⟨n1, h1, h2⟩ := build_list_consec bchs c
      obtain ⟨n2, h3, h4⟩ :=
        build_body_lists_consec tag rest (build_list c bchs).1
      refine ⟨n1 + n2, by omega, ?_⟩
      rw [preorder_append, h2, h4, h1]
      rw [show c + n1 + 1 = (c + 1) + n1 from by omega]
      rw [← List.map_append, consec_append]
    · exact build_body_lists_consec tag rest c

theorem build_expr_operands_consec : ∀ (ts : TSList) (c : Nat),
    ∃ n, (build_expr_operands c ts).1 = c + n ∧
      preorder_list (build_expr_operands c ts).2 =
        (consec (c + 1) n).map mk_ast_node_id
  | TSList.nil, c => ⟨0, rfl, rfl⟩
  | TSList.cons ch rest, c => by
    unfold build_expr_operands
    dsimp only
    split
    · exact build_expr_operands_consec rest c
    · obtain ⟨n1, hp1, h1, h2⟩ := build_node_consec ch c
      obtain ⟨n2, h3, h4⟩ :=
        build_expr_operands_consec rest (build_node c ch).1
      refine ⟨n1 + n2, by omega, ?_⟩
      rw [show preorder_list (BList.cons (build_node c ch).2
        (build_expr_operands (build_node c ch).1 rest).2) =
        preorder (build_node c ch).2 ++
          preorder_list (build_expr_operands (build_node c ch).1 rest).2
        from rfl]
      rw [h2, h4, h1]
      rw [show c + n1 + 1 = (c + 1) + n1 from by omega]
      rw [← List.map_append, consec_append]

end

/-- C9: within one builder invocation starting at counter `c`,
`ASTBuilder.build_node` assigns ids that are exactly the consecutive
block `node_<c+1> … node_<c+n>` in pre-order visitation order: they are
pairwise distinct, strictly increasing, and the root receives its id
(`node_<c+1>`) before any of its descendants. -/
theorem claim_C9 (t : TSNode) (c : Nat) :
    ∃ n, 0 < n ∧ (build_node c t).1 = c + n ∧
      preorder (build_node c t).2 = (consec (c + 1) n).map mk_ast_node_id ∧
      List.Chain' (· < ·) (consec (c + 1) n) ∧
      (preorder (build_node c t).2).Nodup ∧
      (preorder (build_node c t).2).head? = some (mk_ast_node_id (c + 1)) := by
  obtain ⟨n, hn, h1, h2⟩ := build_node_consec t c
  refine ⟨n, hn, h1, h2, consec_chain n (c + 1), ?_, ?_⟩
  · rw [h2]
    have hpw := List.chain'_iff_pairwise.mp (consec_chain n (c + 1))
    have hnd : (consec (c + 1) n).Nodup :=
      hpw.imp (fun h => Nat.ne_of_lt h)
    exact hnd.map (fun a b h => mk_ast_node_id_inj h)
  · rw [h2]
    obtain ⟨m, rfl⟩ : ∃ m, n = m + 1 := ⟨n - 1, by omega⟩
    rfl
